import Mathlib

/-!
Verification of the Third3D uploader against its specification.

The definitions below are shallow embeddings of the TypeScript sources:
  - `parseSetCookieHeader`   from src/api.ts (lines 6-16)
  - `MetadataSchema` checks  from the bundle container reader (zod schema)
  - `getUser` result logic   from src/api.ts (lines 146-202)
  - the file-upload pipeline from src/upload-avatar.ts (lines 82-161)
  - the publication loop     from src/upload-avatar.ts (lines 22-75)
JavaScript strings are modelled as `List Char` (via `String.data`), JS numbers
as `Nat`, `undefined`/`null` field accesses as `Option`, and thrown exceptions
as `Except String` carrying the error message.  External calls (HTTP, Tauri
`invoke`) are oracles supplied through environment records.
-/

/-- Whitespace characters relevant to `String.prototype.trim` on cookie
header fragments. -/
def isJsSpace (c : Char) : Bool :=
  c = ' ' || c = '\t' || c = '\n' || c = '\r'

/-- JS `str.split(sep)` for a one-character separator: always returns a
non-empty list of (possibly empty) fragments. -/
def splitOnChar (c : Char) : List Char → List (List Char)
  | [] => [[]]
  | x :: xs =>
    match splitOnChar c xs with
    | [] => [[]]
    | y :: ys => if x = c then [] :: y :: ys else (x :: y) :: ys

/-- JS `str.trim()` restricted to the whitespace of `isJsSpace`. -/
def trimChars (l : List Char) : List Char :=
  ((l.dropWhile isJsSpace).reverse.dropWhile isJsSpace).reverse

/-- Cookie map produced by the parser; assignments are consed on the front,
so `List.lookup` finds the most recent assignment (JS object overwrite). -/
abbrev Cookies := List (String × Option String)

/-- Shallow embedding of `parseSetCookieHeader` (src/api.ts lines 6-16):
for each header string, split on `','`; from each fragment keep everything
before the first `';'`, split it on `'='`, trim the pieces, and record
`cookies[name] = value` (`value` is `none` when there was no `'='`,
mirroring JS `undefined`). -/
def parseSetCookieHeader (headers : List String) : Cookies :=
  headers.foldl (fun acc h =>
    (splitOnChar ',' h.data).foldl (fun acc cookie =>
      let nameValue := (splitOnChar ';' cookie).headD []
      let parts := (splitOnChar '=' nameValue).map trimChars
      let name := String.mk (parts.headD [])
      let value := (parts.drop 1).head?.map String.mk
      (name, value) :: acc) acc) []

/-- `cookies[k]` as the JS property access: `none` when absent or assigned
`undefined`. -/
def cookieVal (cs : Cookies) (k : String) : Option String :=
  (cs.lookup k).join

/-- Modelled from the spec: a `Set-Cookie` splitter that splits on `','`
only outside attribute quoting (double quotes), as §9 of the spec
describes; this is the reference the code-level parser is compared with. -/
def splitQuoteAware : List Char → Bool → List (List Char)
  | [], _ => [[]]
  | x :: xs, q =>
    let q' := if x = '"' then !q else q
    match splitQuoteAware xs q' with
    | [] => [[]]
    | y :: ys => if x = ',' && !q then [] :: y :: ys else (x :: y) :: ys

/-- Modelled from the spec: the cookie parser the spec claims — identical to
`parseSetCookieHeader` except that the `','` split is quote-aware. -/
def parseSetCookieHeaderSpec (headers : List String) : Cookies :=
  headers.foldl (fun acc h =>
    (splitQuoteAware h.data false).foldl (fun acc cookie =>
      let nameValue := (splitOnChar ';' cookie).headD []
      let parts := (splitOnChar '=' nameValue).map trimChars
      let name := String.mk (parts.headD [])
      let value := (parts.drop 1).head?.map String.mk
      (name, value) :: acc) acc) []

/-! ## Bundle manifest schema (container reader) -/

/-- JSON values as produced by `JSON.parse`; object fields are the parsed
object's entries (keys unique, insertion order). -/
inductive JsonVal where
  | null
  | bool (b : Bool)
  | num (n : Int)
  | str (s : String)
  | arr (xs : List JsonVal)
  | obj (fields : List (String × JsonVal))

/-- Property lookup on a parsed JSON object. -/
def getField (fields : List (String × JsonVal)) (k : String) : Option JsonVal :=
  (fields.lookup k)

/-- The five performance literals of `AssetBundleSchema`'s `z.enum`. -/
def perfLiterals : List String :=
  ["excellent", "good", "medium", "poor", "verypoor"]

/-- Shallow embedding of `AssetBundleSchema` acceptance (zod):
an object whose `performance` is one of the five literals and whose
`unityVersion` is a string. -/
def assetBundleAccepts (j : JsonVal) : Bool :=
  match j with
  | .obj f =>
    (match getField f "performance" with
     | some (.str s) => perfLiterals.contains s
     | _ => false) &&
    (match getField f "unityVersion" with
     | some (.str _) => true
     | _ => false)
  | _ => false

/-- `z.optional` acceptance: absent key passes, present key must validate. -/
def optBundleAccepts (g : List (String × JsonVal)) (k : String) : Bool :=
  match getField g k with
  | none => true
  | some v => assetBundleAccepts v

/-- Shallow embedding of `MetadataSchema.safeParse(...).success` from the
container reader: `name` and `blueprintId` must be strings (`z.string()` —
no emptiness check in the source), and `assetBundles` an object whose
optional `windows`/`android`/`ios` entries validate. -/
def metadataAccepts (j : JsonVal) : Bool :=
  match j with
  | .obj f =>
    (match getField f "name" with
     | some (.str _) => true
     | _ => false) &&
    (match getField f "blueprintId" with
     | some (.str _) => true
     | _ => false) &&
    (match getField f "assetBundles" with
     | some (.obj g) =>
       optBundleAccepts g "windows" && optBundleAccepts g "android" &&
         optBundleAccepts g "ios"
     | _ => false)
  | _ => false

/-- Declarative shape of an accepted asset-bundle entry. -/
def AssetBundleShape (v : JsonVal) : Prop :=
  ∃ gf, v = .obj gf ∧
    (∃ s, getField gf "performance" = some (.str s) ∧ s ∈ perfLiterals) ∧
    (∃ u, getField gf "unityVersion" = some (.str u))

/-- Declarative optional-entry condition. -/
def OptBundleShape (g : List (String × JsonVal)) (k : String) : Prop :=
  ∀ v, getField g k = some v → AssetBundleShape v

/-- Declarative shape of an accepted manifest: `name` and `blueprintId` are
strings — possibly empty — and `assetBundles` is an object of valid
optional per-platform entries. -/
def MetadataShape (j : JsonVal) : Prop :=
  ∃ f, j = .obj f ∧
    (∃ n, getField f "name" = some (.str n)) ∧
    (∃ b, getField f "blueprintId" = some (.str b)) ∧
    (∃ g, getField f "assetBundles" = some (.obj g) ∧
      OptBundleShape g "windows" ∧ OptBundleShape g "android" ∧
        OptBundleShape g "ios")

/-- The empty-strings manifest used to test the schema's emptiness checks. -/
def emptyNameManifest : JsonVal :=
  .obj [("name", .str ""), ("blueprintId", .str ""), ("assetBundles", .obj [])]

/-! ## getUser result logic (src/api.ts lines 146-202) -/

/-- The two-factor kinds distinguished by `getUser`. -/
inductive TwoFaKind where
  | emailotp
  | totp
deriving DecidableEq

/-- The tagged union `UserResponse` of src/api.ts. -/
inductive UserRes where
  | invalid
  | twofa (kind : TwoFaKind) (authToken : Option String)
  | user (authToken : Option String)
deriving DecidableEq

/-- `Response.ok` of the fetch API: status in the inclusive range 200-299. -/
def respOk (status : Nat) : Bool :=
  200 ≤ status && status ≤ 299

/-- Shallow embedding of the response handling of `getUser`
(src/api.ts lines 174-201): a 401 yields the `invalid` result, any other
non-2xx throws `VRChatError`, and on success the `auth` cookie is captured
from the `Set-Cookie` headers; `data.requiresTwoFactorAuth` truthy (any
array, even empty) selects the two-factor result. -/
def getUserModel (status : Nat) (req2fa : Option (List String)) (body : String)
    (setCookie : List String) : Except String UserRes :=
  if status = 401 then .ok .invalid
  else if !respOk status then .error ("Data: " ++ body)
  else
    let authToken :=
      if setCookie.isEmpty then none
      else cookieVal (parseSetCookieHeader setCookie) "auth"
    match req2fa with
    | some kinds =>
      .ok (.twofa (if kinds.contains "emailOtp" then .emailotp else .totp) authToken)
    | none => .ok (.user authToken)

/-- The auth token carried by a `getUser` result. -/
def authTokenOf : UserRes → Option String
  | .invalid => none
  | .twofa _ t => t
  | .user t => t

/-! ## Digest encodings -/

/-- Lowercase hexadecimal digits. -/
def hexDigits : List Char := "0123456789abcdef".data

/-- Modelled from the spec: the 32-char lowercase hex encoding of an MD5
digest ("hex-encoded for API bodies", §4.1). -/
def hexEncode : List (Fin 256) → List Char
  | [] => []
  | b :: rest =>
    hexDigits.getD (b.val / 16) '0' :: hexDigits.getD (b.val % 16) '0' ::
      hexEncode rest

/-- The standard Base64 alphabet. -/
def base64Alphabet : List Char :=
  "ABCDEFGHIJKLMNOPQRSTUVWXYZabcdefghijklmnopqrstuvwxyz0123456789+/".data

/-- Base64 digit at index `i`. -/
def b64c (i : Nat) : Char := base64Alphabet.getD i '?'

/-- Modelled from the spec: standard Base64 encoding of a byte string
("Base64-encoded for wire use by the upload driver", §4.1,
`Content-MD5: <Base64(MD5(file))>` §4.5). -/
def base64Encode : List (Fin 256) → List Char
  | [] => []
  | [a] => [b64c (a.val / 4), b64c (a.val % 4 * 16), '=', '=']
  | [a, b] =>
    [b64c (a.val / 4), b64c (a.val % 4 * 16 + b.val / 16), b64c (b.val % 16 * 4), '=']
  | a :: b :: c :: rest =>
    b64c (a.val / 4) :: b64c (a.val % 4 * 16 + b.val / 16) ::
      b64c (b.val % 16 * 4 + c.val / 64) :: b64c (c.val % 64) :: base64Encode rest

/-! ## File records (src/api.ts interfaces) and the upload pipeline -/

/-- `FileData.status` / `FileVersion.status` literals; `statusNone` is the
source literal `'none'`. -/
inductive VStatus where
  | waiting
  | complete
  | statusNone
  | queued
deriving DecidableEq

/-- `FileData.category` literals. -/
inductive FileCategory where
  | multipart
  | queued
  | simple
deriving DecidableEq

/-- The `FileData` fields the modelled paths read. -/
structure FileDataM where
  category : FileCategory
  url : String
deriving DecidableEq

/-- A `FileVersion`: `file` is optional in the source interface and is
dereferenced with the unchecked `!!` assertion. -/
structure FileVersionM where
  status : VStatus
  file : Option FileDataM
deriving DecidableEq

/-- The `File` fields the modelled paths read. -/
structure VFileM where
  id : String
  versions : List FileVersionM
deriving DecidableEq

/-- The `createFileVersion` request body (src/upload-avatar.ts lines 102-107). -/
structure VersionBody where
  signatureMd5 : String
  signatureSizeInBytes : Nat
  fileMd5 : String
  fileSizeInBytes : Nat
deriving DecidableEq

/-- The outward calls `uploadFileToVRChat` makes, in order. -/
inductive ApiCall where
  | showFile (fileId : String)
  | createFile (name : String) (mime : String)
  | deleteFileVersion (fileId : String) (versionIndex : Nat)
  | createFileVersion (fileId : String) (body : VersionBody)
  | startFileUpload (fileId : String) (versionId : Nat) (sub : String) (part : Option Nat)
  | putPart (partNumber start length : Nat)
  | finishFileUpload (fileId : String) (versionId : Nat) (sub : String)
      (etags : Option (List (Option String)))
  | putSimple (headers : List (String × String))
  | putSig (headers : List (String × String))
  | showFileFinal (fileId : String)
deriving DecidableEq

/-- `USER_AGENT` of src/api.ts. -/
def USER_AGENT : String := "Third Uploader/0.1.2 third3dcom@gmail.com"

/-- `const partSize = 10 * 1024 * 1024` (src/upload-avatar.ts line 113). -/
def partSize : Nat := 10 * 1024 * 1024

/-- `Math.ceil(fileMetadata.size / partSize)` (line 114), as exact ceiling
division on `Nat`. -/
def maxParts (size : Nat) : Nat := (size + partSize - 1) / partSize

/-- A single or double quote. -/
def isQuote (c : Char) : Bool := c = '\'' || c = '"'

/-- `etag.replace(/^['"]|['"]$/g, '')` (line 125): remove one leading quote
if present, then one trailing quote of what remains. -/
def stripQuotes (s : String) : String :=
  let l1 :=
    match s.data with
    | c :: rest => if isQuote c then rest else s.data
    | [] => []
  let l2 :=
    match l1.reverse with
    | c :: rest => if isQuote c then rest.reverse else l1
    | [] => []
  String.mk l2

/-- Outcomes of the per-part external calls of the multipart loop:
`start k` is `startFileUpload(..., partNumber = k)` and
`put k start length` is the `upload_file` Tauri command returning the ETag
header value (the empty string models a PUT acknowledged without an ETag). -/
structure PartEnv where
  start : Nat → Except String Unit
  put : Nat → Nat → Nat → Except String String

/-- State of the multipart `for` loop: collected etags (or the thrown
error), progress events `(part, totalParts)` emitted so far, calls made. -/
structure LoopState where
  res : Except String (List (Option String))
  evs : List (Nat × Nat)
  calls : List ApiCall

/-- One iteration of the multipart loop for `partNumber = k`
(src/upload-avatar.ts lines 116-131): emit `(k-1, maxParts)`, request the
pre-signed URL, PUT the byte range `[(k-1)*partSize, min(k*partSize, size))`,
and store the quote-stripped etag at index `k-1` when it is non-empty. -/
def partStep (S : Nat) (fileId : String) (fvid : Nat) (env : PartEnv)
    (st : LoopState) (k : Nat) : LoopState :=
  match st.res with
  | .error _ => st
  | .ok etags =>
    let n := maxParts S
    let evs := st.evs ++ [(k - 1, n)]
    let startCall := ApiCall.startFileUpload fileId fvid "file" (some k)
    match env.start k with
    | .error m => { res := .error m, evs := evs, calls := st.calls ++ [startCall] }
    | .ok _ =>
      let s := (k - 1) * partSize
      let e := min (k * partSize) S
      let len := e - s
      let putCall := ApiCall.putPart k s len
      match env.put k s len with
      | .error m => { res := .error m, evs := evs, calls := st.calls ++ [startCall, putCall] }
      | .ok etag =>
        { res := .ok (if etag ≠ "" then etags.set (k - 1) (some (stripQuotes etag)) else etags),
          evs := evs, calls := st.calls ++ [startCall, putCall] }

/-- The multipart loop over `partNumber = 1 .. maxParts S`, starting from
`Array(maxParts)` (all slots empty). -/
def runMultipart (S : Nat) (fileId : String) (fvid : Nat) (env : PartEnv) : LoopState :=
  (List.range' 1 (maxParts S)).foldl (partStep S fileId fvid env)
    ⟨.ok (List.replicate (maxParts S) none), [], []⟩

/-- Outcomes of the external calls made by one `uploadFileToVRChat`
invocation; `md5` is the `md5_digest_file` Tauri command (one digest string
per path — the implementation lives in the native layer). -/
structure FileEnv where
  showFileRes : Except String VFileM
  createFileRes : Except String VFileM
  deleteRes : Except String Unit
  createVersionRes : Except String VFileM
  size : Nat
  sigSize : Nat
  md5 : String → String
  partEnv : PartEnv
  startSimple : Except String Unit
  putSimple : Except String Unit
  finishFile : Except String Unit
  startSig : Except String Unit
  putSig : Except String Unit
  finishSig : Except String Unit
  showFinalRes : Except String VFileM

/-- Result of one `uploadFileToVRChat` run: the returned asset URL (or the
thrown error), the `onProgress (part, totalParts)` events, and the calls. -/
structure FileRun where
  result : Except String String
  evs : List (Nat × Nat)
  calls : List ApiCall

/-- The tail of the multipart branch (src/upload-avatar.ts lines 132-133):
given the loop's final state, `finishFileUpload` with the collected etags and
the final progress event. -/
def multipartFinish (env : FileEnv) (file : VFileM) (fvid : Nat)
    (calls2 : List ApiCall) (st : LoopState) : FileRun :=
  match st.res with
  | .error m => ⟨.error m, st.evs, calls2 ++ st.calls⟩
  | .ok etags =>
    let callsF := calls2 ++ st.calls ++
      [ApiCall.finishFileUpload file.id fvid "file" (some etags)]
    match env.finishFile with
    | .error m => ⟨.error m, st.evs, callsF⟩
    | .ok _ => ⟨.ok "", st.evs ++ [(maxParts env.size, maxParts env.size)], callsF⟩

/-- The multipart branch of the inner `uploadFile` closure
(src/upload-avatar.ts lines 112-133): run the part loop, then finish. -/
def multipartUpload (env : FileEnv) (file : VFileM) (fvid : Nat)
    (calls2 : List ApiCall) : FileRun :=
  multipartFinish env file fvid calls2 (runMultipart env.size file.id fvid env.partEnv)

/-- The simple branch of the inner `uploadFile` closure
(src/upload-avatar.ts lines 134-144): one PUT of the whole file with the
`User-Agent`, `Content-Type` and `Content-MD5` headers, then `finish`. -/
def simpleUpload (env : FileEnv) (file : VFileM) (fvid : Nat)
    (mime fileMd5 : String) (calls2 : List ApiCall) : FileRun :=
  let callsS := calls2 ++ [ApiCall.startFileUpload file.id fvid "file" none]
  match env.startSimple with
  | .error m => ⟨.error m, [(0, 1)], callsS⟩
  | .ok _ =>
    let headers := [("User-Agent", USER_AGENT), ("Content-Type", mime),
      ("Content-MD5", fileMd5)]
    let callsP := callsS ++ [ApiCall.putSimple headers]
    match env.putSimple with
    | .error m => ⟨.error m, [(0, 1)], callsP⟩
    | .ok _ =>
      let callsFin := callsP ++ [ApiCall.finishFileUpload file.id fvid "file" none]
      match env.finishFile with
      | .error m => ⟨.error m, [(0, 1)], callsFin⟩
      | .ok _ => ⟨.ok "", [(0, 1), (1, 1)], callsFin⟩

/-- The inner `uploadFile` closure of `uploadFileToVRChat`
(src/upload-avatar.ts lines 111-145): branch on the latest version's
`file!!.category` — the unchecked dereference throws on a missing version or
file object — into the multipart or the simple upload. -/
def uploadFileStage (env : FileEnv) (file : VFileM) (fvid : Nat)
    (mime fileMd5 : String) (calls2 : List ApiCall) : FileRun :=
  match file.versions.getLast? with
  | none => ⟨.error "TypeError", [], calls2⟩
  | some v =>
    match v.file with
    | none => ⟨.error "TypeError", [], calls2⟩
    | some fd =>
      if fd.category = FileCategory.multipart then
        multipartUpload env file fvid calls2
      else
        simpleUpload env file fvid mime fileMd5 calls2

/-- The `uploadSig` closure and the final `showFile` of `uploadFileToVRChat`
(src/upload-avatar.ts lines 147-160), sequentialized after the file upload:
simple PUT of the signature with its `Content-MD5`, then `showFile` to read
the latest version's `file!!.url`. -/
def sigFinishStage (env : FileEnv) (fileId : String) (fvid : Nat)
    (signatureMd5 : String) (fr : FileRun) : FileRun :=
  match fr.result with
  | .error m => ⟨.error m, fr.evs, fr.calls⟩
  | .ok _ =>
    let sigHeaders := [("User-Agent", USER_AGENT),
      ("Content-Type", "application/x-rsync-signature"), ("Content-MD5", signatureMd5)]
    let callsG := fr.calls ++ [ApiCall.startFileUpload fileId fvid "signature" none]
    match env.startSig with
    | .error m => ⟨.error m, fr.evs, callsG⟩
    | .ok _ =>
      let callsG2 := callsG ++ [ApiCall.putSig sigHeaders]
      match env.putSig with
      | .error m => ⟨.error m, fr.evs, callsG2⟩
      | .ok _ =>
        let callsG3 := callsG2 ++ [ApiCall.finishFileUpload fileId fvid "signature" none]
        match env.finishSig with
        | .error m => ⟨.error m, fr.evs, callsG3⟩
        | .ok _ =>
          let callsFinal := callsG3 ++ [ApiCall.showFileFinal fileId]
          match env.showFinalRes with
          | .error m => ⟨.error m, fr.evs, callsFinal⟩
          | .ok fup =>
            match fup.versions.getLast? with
            | none => ⟨.error "TypeError", fr.evs, callsFinal⟩
            | some v2 =>
              match v2.file with
              | none => ⟨.error "TypeError", fr.evs, callsFinal⟩
              | some fd2 => ⟨.ok fd2.url, fr.evs, callsFinal⟩

/-- Shallow embedding of `uploadFileToVRChat` (src/upload-avatar.ts lines
82-161): resolve the file record (`showFile` when a file id is reused,
`createFile` otherwise), compute the digests, reconcile the latest version
(line 100: delete it when its status is not `complete` — on an empty
`versions` list the JS indexing yields `undefined` and `.status` throws,
modelled as the `"TypeError"` error), `createFileVersion`, then the file
upload and the signature upload.  Empty-list indexing and the unchecked
`file!!` dereference surface as the thrown `"TypeError"`. -/
def uploadFileModel (fileId? : Option String) (name path mime : String)
    (env : FileEnv) : FileRun :=
  let resolved : Except String VFileM × List ApiCall :=
    match fileId? with
    | some fid => (env.showFileRes, [ApiCall.showFile fid])
    | none => (env.createFileRes, [ApiCall.createFile name mime])
  match resolved.1 with
  | .error m => ⟨.error m, [], resolved.2⟩
  | .ok file0 =>
    let fileMd5 := env.md5 path
    let signatureMd5 := env.md5 (path ++ ".sig")
    match file0.versions.getLast? with
    | none => ⟨.error "TypeError", [], resolved.2⟩
    | some lastV =>
      let reconciled : Except String Unit × List ApiCall :=
        if lastV.status ≠ VStatus.complete then
          (env.deleteRes,
            resolved.2 ++ [ApiCall.deleteFileVersion file0.id (file0.versions.length - 1)])
        else (.ok (), resolved.2)
      match reconciled.1 with
      | .error m => ⟨.error m, [], reconciled.2⟩
      | .ok _ =>
        let body : VersionBody := ⟨signatureMd5, env.sigSize, fileMd5, env.size⟩
        let calls2 := reconciled.2 ++ [ApiCall.createFileVersion file0.id body]
        match env.createVersionRes with
        | .error m => ⟨.error m, [], calls2⟩
        | .ok file =>
          let fvid := file.versions.length - 1
          sigFinishStage env file.id fvid signatureMd5
            (uploadFileStage env file fvid mime fileMd5 calls2)

/-- First `createFileVersion` body among a call list. -/
def findVersionBody : List ApiCall → Option VersionBody
  | [] => none
  | .createFileVersion _ b :: _ => some b
  | _ :: rest => findVersionBody rest

/-- First simple-PUT header list among a call list. -/
def findSimpleHeaders : List ApiCall → Option (List (String × String))
  | [] => none
  | .putSimple h :: _ => some h
  | _ :: rest => findSimpleHeaders rest

/-- First multipart `finish` etag list among a call list. -/
def findFinishEtags : List ApiCall → Option (List (Option String))
  | [] => none
  | .finishFileUpload _ _ _ (some e) :: _ => some e
  | _ :: rest => findFinishEtags rest

/-! ## Publication orchestrator (src/upload-avatar.ts lines 22-75) -/

/-- The `Progress` union of src/upload-avatar.ts (lines 13-15). -/
inductive Progress where
  | init
  | thumbnail
  | waiting
  | completed
  | bundle (part totalParts platformIndex totalPlatforms : Nat)
  | error (msg : String)
deriving DecidableEq

/-- The entries of `Avatar.unityPackages` the orchestrator reads. -/
structure UnityPackageM where
  platform : String
  variant : String
  assetUrl : String
deriving DecidableEq

/-- The `Avatar` fields the orchestrator reads. -/
structure AvatarM where
  id : String
  thumbnailImageUrl : String
  unityPackages : List UnityPackageM
deriving DecidableEq

/-- A thrown `VRChatError`: HTTP status plus the message string
`"Data: " + JSON.stringify(data)`. -/
structure VErr where
  status : Nat
  msg : String
deriving DecidableEq

/-- Errors thrown by `createAvatar`: a `VRChatError` carrying
`data.error.status_code`, or any other exception. -/
inductive CreateErr where
  | vrchat (statusCode : Nat) (msg : String)
  | other (msg : String)
deriving DecidableEq

/-- The bundle manifest fields the orchestrator reads; `assetBundles` maps
each declared platform key to its `unityVersion`. -/
structure BundleMeta where
  name : String
  blueprintId : String
  assetBundles : List (String × String)
deriving DecidableEq

/-- One step of the `for await (... of readyBundle())` iteration: either the
generator throws, or it yields `{platform, path}` together with the
environment for that platform's upload and the `updateAvatar` outcome. -/
inductive ReadyItem where
  | fail (msg : String)
  | yield (platform : String) (path : String) (fenv : FileEnv)
      (updRes : Except String Unit)

/-- Environment of one `useUpload.upload` run. -/
structure OrchEnv where
  meta : BundleMeta
  thumbnailPath : String
  getAvatarRes : Except VErr AvatarM
  imageEnv : FileEnv
  updAvatarImage : Except String Unit
  createAvatarRes : Except CreateErr AvatarM
  ready : List ReadyItem

/-- The avatar-level calls the orchestrator makes. -/
inductive OrchCall where
  | getAvatarC
  | updateAvatarImage
  | createAvatarC
  | updateAvatarBundle (platform : String)
deriving DecidableEq

/-- Result of one orchestrator run: emitted progress events and avatar calls. -/
structure OrchRun where
  events : List Progress
  calls : List OrchCall

/-- Shallow embedding of `getAvatar` (src/api.ts lines 381-397): any
non-2xx response throws `VRChatError(data)`. -/
def getAvatarApi (status : Nat) (body : String) (av : AvatarM) : Except VErr AvatarM :=
  if respOk status then .ok av else .error ⟨status, "Data: " ++ body⟩

/-- Modelled from the spec: `parseFileUrl` is imported from src/api.ts but
its body is not among the provided sources; per §6, a Service file URL has
the shape `.../file/{id}/{version}/{subresource}` (or ends with
`/file/{id}`) and the parser extracts the `{id}` component. -/
def segAfterFile : List String → String
  | [] => ""
  | "file" :: x :: _ => x
  | _ :: rest => segAfterFile rest

/-- Modelled from the spec: the `id` component of a Service file URL. -/
def parseFileUrlId (url : String) : String :=
  segAfterFile ((splitOnChar '/' url.data).map String.mk)

/-- `avatarFileName` (src/upload-avatar.ts line 163). -/
def avatarFileName (name : String) : String :=
  "Avatar - " ++ name ++ " - Asset bundle - 2022.3.6f1_1_standalonewindows_Release"

/-- `imageFileName` (src/upload-avatar.ts line 164). -/
def imageFileName (name : String) : String :=
  "Avatar - " ++ name ++ " - Image - 2022.3.6f1_1_standalonewindows_Release"

/-- Processing of one yielded platform (src/upload-avatar.ts lines 56-67):
tokenise the platform, look up its declared `unityVersion` (the unchecked
`!!` throws on an undeclared platform), reuse the file id of an existing
`standard` unity package if present, upload the bundle forwarding
`(part, totalParts)` as `bundle` events, and `updateAvatar`.  Returns the
events, the calls, and the error that stops the iteration (if any). -/
def platformYield (meta : BundleMeta) (avatar : AvatarM) (idx total : Nat)
    (platform path : String) (fenv : FileEnv) (updRes : Except String Unit) :
    List Progress × List OrchCall × Option String :=
  let unityPlatform := if platform = "windows" then "standalonewindows" else platform
  match meta.assetBundles.lookup platform with
  | none => ([], [], some "TypeError")
  | some _ =>
    let existing := avatar.unityPackages.find?
      (fun up => up.platform = unityPlatform && up.variant = "standard")
    let fid := existing.map (fun up => parseFileUrlId up.assetUrl)
    let run := uploadFileModel fid (avatarFileName meta.name) path
      "application/x-avatar" fenv
    let evs := run.evs.map (fun pt => Progress.bundle pt.1 pt.2 idx total)
    match run.result with
    | .error m => (evs, [], some m)
    | .ok _ =>
      match updRes with
      | .error m => (evs, [OrchCall.updateAvatarBundle platform], some m)
      | .ok _ => (evs, [OrchCall.updateAvatarBundle platform], none)

/-- The `for await (... of readyBundle())` loop (src/upload-avatar.ts lines
55-69): process each ready platform in turn, incrementing `platformIndex`,
and stop at the first error. -/
def platformLoop (meta : BundleMeta) (avatar : AvatarM) (total : Nat) :
    Nat → List ReadyItem → List Progress × List OrchCall × Option String
  | _, [] => ([], [], none)
  | idx, item :: rest =>
    match item with
    | .fail m => ([], [], some m)
    | .yield platform path fenv updRes =>
      let step := platformYield meta avatar idx total platform path fenv updRes
      match step.2.2 with
      | some m => (step.1, step.2.1, some m)
      | none =>
        let next := platformLoop meta avatar total (idx + 1) rest
        (step.1 ++ next.1, step.2.1 ++ next.2.1, next.2.2)

/-- The tail of the orchestrator after the avatar upsert (lines 52-70): emit
`waiting`, drain the ready bundles, then `completed` — or a single `error`
event carrying the first failure. -/
def orchAfterUpsert (env : OrchEnv) (avatar : AvatarM) (evs : List Progress)
    (calls : List OrchCall) : OrchRun :=
  let evs2 := evs ++ [Progress.waiting]
  let total := env.meta.assetBundles.length
  let next := platformLoop env.meta avatar total 0 env.ready
  match next.2.2 with
  | some m => ⟨evs2 ++ next.1 ++ [Progress.error m], calls ++ next.2.1⟩
  | none => ⟨evs2 ++ next.1 ++ [Progress.completed], calls ++ next.2.1⟩

/-- Shallow embedding of `useUpload.upload` (src/upload-avatar.ts lines
22-75).  `getAvatar` is called inside its own try/catch: any error leaves
`avatar = null` and routes to the create branch.  The whole body is wrapped
in a try/catch whose handler emits a single `error{msg}` event. -/
def orchRun (env : OrchEnv) : OrchRun :=
  let calls0 := [OrchCall.getAvatarC]
  let evs1 := [Progress.init, Progress.thumbnail]
  match env.getAvatarRes.toOption with
  | some a =>
    let fid := parseFileUrlId a.thumbnailImageUrl
    let run := uploadFileModel (some fid) (imageFileName env.meta.name)
      env.thumbnailPath "image/png" env.imageEnv
    match run.result with
    | .error m => ⟨evs1 ++ [Progress.error m], calls0⟩
    | .ok _ =>
      let calls1 := calls0 ++ [OrchCall.updateAvatarImage]
      match env.updAvatarImage with
      | .error m => ⟨evs1 ++ [Progress.error m], calls1⟩
      | .ok _ => orchAfterUpsert env a evs1 calls1
  | none =>
    let run := uploadFileModel none (imageFileName env.meta.name)
      env.thumbnailPath "image/png" env.imageEnv
    match run.result with
    | .error m => ⟨evs1 ++ [Progress.error m], calls0⟩
    | .ok _ =>
      let calls1 := calls0 ++ [OrchCall.createAvatarC]
      match env.createAvatarRes with
      | .error (.vrchat code m) =>
        if code = 500 then
          ⟨evs1 ++ [Progress.error "Blueprint ID already in use: Avatar bundle has already been uploaded"], calls1⟩
        else ⟨evs1 ++ [Progress.error m], calls1⟩
      | .error (.other m) => ⟨evs1 ++ [Progress.error m], calls1⟩
      | .ok a => orchAfterUpsert env a evs1 calls1

/-! ## Proof infrastructure: loop characterisation and concrete runs -/

/-- Progress events emitted by the first `m` iterations of the multipart
loop. -/
def evsAfter (S : Nat) : Nat → List (Nat × Nat)
  | 0 => []
  | m + 1 => evsAfter S m ++ [(m, maxParts S)]

/-- Calls made by the first `m` iterations of the multipart loop. -/
def callsAfter (S : Nat) (fileId : String) (fvid : Nat) : Nat → List ApiCall
  | 0 => []
  | m + 1 => callsAfter S fileId fvid m ++
      [ApiCall.startFileUpload fileId fvid "file" (some (m + 1)),
       ApiCall.putPart (m + 1) (m * partSize) (min ((m + 1) * partSize) S - m * partSize)]

/-- The etag array after the first `m` iterations of the multipart loop,
when part `k`'s PUT returned the string `tag k`. -/
def etagsAfter (S : Nat) (tag : Nat → String) (m : Nat) : List (Option String) :=
  (List.range (maxParts S)).map (fun i =>
    if i < m ∧ tag (i + 1) ≠ "" then some (stripQuotes (tag (i + 1))) else none)

/-- Recognises a `deleteFileVersion` call. -/
def isDeleteCall : ApiCall → Bool
  | .deleteFileVersion _ _ => true
  | _ => false

/-- A list consisting solely of `bundle` progress events. -/
def AllBundle (l : List Progress) : Prop :=
  ∀ e ∈ l, ∃ p t i n, e = Progress.bundle p t i n

/-- The event-trace shapes reachable by `useUpload.upload`: `init` then
`thumbnail`, then either an immediate `error`, or `waiting` followed by
`bundle` events only and exactly one terminal `completed` or `error`. -/
def GoodTrace (tr : List Progress) : Prop :=
  (∃ m, tr = [Progress.init, Progress.thumbnail, Progress.error m]) ∨
  (∃ bs, AllBundle bs ∧
    (tr = [Progress.init, Progress.thumbnail, Progress.waiting] ++ bs ++ [Progress.completed] ∨
     ∃ m, tr = [Progress.init, Progress.thumbnail, Progress.waiting] ++ bs ++ [Progress.error m]))

/-- An all-success `FileEnv`: every external call succeeds, the resolved and
created file records are `f`, the digest command returns `md5out` for every
path, and every multipart PUT returns `etag`. -/
def okFileEnv (f : VFileM) (md5out : String) (etag : String) (size : Nat) : FileEnv :=
  ⟨.ok f, .ok f, .ok (), .ok f, size, 8, fun _ => md5out,
    ⟨fun _ => .ok (), fun _ _ _ => .ok etag⟩,
    .ok (), .ok (), .ok (), .ok (), .ok (), .ok (), .ok f⟩

/-- A file record whose single version is complete with a simple-category
file. -/
def simpleFile : VFileM :=
  ⟨"file_1", [⟨VStatus.complete, some ⟨FileCategory.simple, "https://x/file/file_1/1/file"⟩⟩]⟩

/-- A file record whose single version is complete with a multipart-category
file. -/
def multipartFile : VFileM :=
  ⟨"file_1", [⟨VStatus.complete, some ⟨FileCategory.multipart, "https://x/file/file_1/1/file"⟩⟩]⟩

/-- Concrete run for claim C1: a 1-byte (one part) multipart upload whose
single PUT succeeds but returns no ETag (`""`, JS falsy). -/
def c1Env : FileEnv := okFileEnv multipartFile "d41d8cd98f00b204e9800998ecf8427e" "" 1

/-- Concrete run for claim C2: a simple-category upload with a fixed digest
oracle. -/
def c2Env : FileEnv := okFileEnv simpleFile "0123456789abcdef0123456789abcdef" "\"e\"" 5

/-- The C2 run. -/
def c2Run : FileRun := uploadFileModel (some "file_1") "n" "path" "image/png" c2Env

/-- The `fileMd5` field of the `createFileVersion` body sent in the C2 run. -/
def c2Body : String :=
  match findVersionBody c2Run.calls with
  | some b => b.fileMd5
  | none => ""

/-- The `Content-MD5` header of the simple PUT in the C2 run. -/
def c2Header : String :=
  match findSimpleHeaders c2Run.calls with
  | some h => (h.lookup "Content-MD5").getD ""
  | none => ""

/-- Single-platform manifest for the C8/C10 concrete runs. -/
def c8Meta : BundleMeta := ⟨"Alice", "avtr_1", [("windows", "2022.3.6f1")]⟩

/-- The avatar created in the C8/C10 concrete runs. -/
def c8Avatar : AvatarM := ⟨"avtr_1", "https://x/file/file_t/1/file", []⟩

/-- All-success simple-category file environment for the C8/C10 runs. -/
def c8FileEnv : FileEnv := okFileEnv simpleFile "0123456789abcdef0123456789abcdef" "\"e\"" 5

/-- The C8 concrete orchestrator environment: `getAvatar` fails (avatar does
not exist), one `windows` platform, every upload step succeeds. -/
def c8Env : OrchEnv :=
  ⟨c8Meta, "thumb.png", .error ⟨404, "Data: nf"⟩, c8FileEnv, .ok (), .ok c8Avatar,
    [.yield "windows" "windows.vrca" c8FileEnv (.ok ())]⟩

/-- A file record whose single version is still `waiting`. -/
def waitingFile : VFileM :=
  ⟨"file_1", [⟨VStatus.waiting, some ⟨FileCategory.simple, "https://x/file/file_1/1/file"⟩⟩]⟩

/-- Concrete environment for claim C5: the resolved file's latest version is
not complete. -/
def c5Env : FileEnv := okFileEnv waitingFile "md5digest" "\"e\"" 5

/-- A freshly created file record with no versions at all. -/
def emptyVersionsFile : VFileM := ⟨"file_1", []⟩

/-- Concrete environment for claim C9: the resolved file has an empty
version list. -/
def c9Env : FileEnv := okFileEnv emptyVersionsFile "md5digest" "\"e\"" 5

/-! ## Theorems -/

/-- Helper: an asset-bundle entry is accepted by the zod schema exactly when
it has the declarative shape. -/
theorem assetBundleAccepts_iff (v : JsonVal) :
    assetBundleAccepts v = true ↔ AssetBundleShape v := by
  cases v <;> simp [assetBundleAccepts, AssetBundleShape]
  case obj f =>
    constructor
    · rintro ⟨h1, h2⟩
      constructor
      · split at h1
        next s heq => exact ⟨s, heq, of_decide_eq_true h1⟩
        next => exact absurd h1 (by simp)
      · split at h2
        next u heq => exact ⟨u, heq⟩
        next => exact absurd h2 (by simp)
    · rintro ⟨⟨s, hs, hmem⟩, ⟨u, hu⟩⟩
      simp [hs, hu, hmem]

/-- Helper: optional per-platform entries validate exactly when present
entries have the declarative shape. -/
theorem optBundleAccepts_iff (g : List (String × JsonVal)) (k : String) :
    optBundleAccepts g k = true ↔ OptBundleShape g k := by
  unfold optBundleAccepts OptBundleShape
  split
  next heq => simp [heq]
  next v heq =>
    rw [assetBundleAccepts_iff]
    constructor
    · intro h w hw
      rw [heq] at hw
      cases hw
      exact h
    · intro h
      exact h v heq

/-- Claim C6 (amended): the container reader accepts a manifest exactly when
`name` is a string, `blueprintId` is a string — emptiness is NOT checked:
`z.string()` accepts the empty string — and `assetBundles` is an object
whose optional per-platform entries validate. -/
theorem C6_metadata_schema (j : JsonVal) :
    metadataAccepts j = true ↔ MetadataShape j := by
  cases j <;> simp [metadataAccepts, MetadataShape]
  case obj f =>
    constructor
    · rintro ⟨⟨h1, h2⟩, h3⟩
      refine ⟨?_, ?_, ?_⟩
      · split at h1
        next n heq => exact ⟨n, heq⟩
        next => exact absurd h1 (by simp)
      · split at h2
        next b heq => exact ⟨b, heq⟩
        next => exact absurd h2 (by simp)
      · split at h3
        next g heq =>
          rw [Bool.and_eq_true, Bool.and_eq_true] at h3
          exact ⟨g, heq, (optBundleAccepts_iff g "windows").mp h3.1.1,
            (optBundleAccepts_iff g "android").mp h3.1.2,
            (optBundleAccepts_iff g "ios").mp h3.2⟩
        next => exact absurd h3 (by simp)
    · rintro ⟨⟨n, hn⟩, ⟨b, hb⟩, ⟨g, hg, hw, ha, hi⟩⟩
      rw [hn, hb, hg]
      simp [(optBundleAccepts_iff g "windows").mpr hw,
        (optBundleAccepts_iff g "android").mpr ha,
        (optBundleAccepts_iff g "ios").mpr hi]

/-- Claim C6 counterexample: a manifest whose `name` and `blueprintId` are
both the empty string is ACCEPTED by the schema (`metadataAccepts` is the
embedding of `MetadataSchema.safeParse(...).success`), refuting "a manifest
with an empty name or empty blueprintId is rejected as invalid". -/
theorem C6_counterexample : metadataAccepts emptyNameManifest = true := by decide

/-- Claim C6 witness: the amended characterisation applied to the concrete
empty-strings manifest. -/
theorem C6_witness : MetadataShape emptyNameManifest :=
  (C6_metadata_schema emptyNameManifest).mp (by decide)

/-- Claim C4 counterexample: on the header `auth="ab,cd"; Path=/` the code
parser (which splits on every `','`) extracts `auth = "ab` truncated at the
comma, while the quote-aware parser the claim describes extracts the full
value `"ab,cd"`; the two disagree, refuting "splits on ',' only outside
attribute quoting ... extracts the correct values". -/
theorem C4_counterexample :
    cookieVal (parseSetCookieHeader ["auth=\"ab,cd\"; Path=/"]) "auth"
        = some "\"ab" ∧
    cookieVal (parseSetCookieHeaderSpec ["auth=\"ab,cd\"; Path=/"]) "auth"
        = some "\"ab,cd\"" ∧
    cookieVal (parseSetCookieHeader ["auth=\"ab,cd\"; Path=/"]) "auth"
        ≠ cookieVal (parseSetCookieHeaderSpec ["auth=\"ab,cd\"; Path=/"]) "auth" := by
  decide

/-- Claim C4 (amended): the parser splits every `Set-Cookie` header on every
`','` with no quote awareness; it still handles multiple `Set-Cookie`
entries and extracts the correct `auth` and `twoFactorAuth` values whenever
those cookie values contain no comma — in particular a cookie followed by an
`Expires` attribute containing a comma is parsed correctly (the comma only
introduces a spurious junk entry), as on this fixture corpus. -/
theorem C4_cookie_fixtures :
    cookieVal (parseSetCookieHeader
      ["auth=authcookie_123; Path=/; Expires=Wed, 21 Oct 2015 07:28:00 GMT; HttpOnly",
       "twoFactorAuth=tfa_456; Expires=Thu, 22 Oct 2015 07:28:00 GMT; Path=/"]) "auth"
        = some "authcookie_123" ∧
    cookieVal (parseSetCookieHeader
      ["auth=authcookie_123; Path=/; Expires=Wed, 21 Oct 2015 07:28:00 GMT; HttpOnly",
       "twoFactorAuth=tfa_456; Expires=Thu, 22 Oct 2015 07:28:00 GMT; Path=/"]) "twoFactorAuth"
        = some "tfa_456" := by
  decide

/-- Claim C7: a 401 response yields the `invalid` result rather than a
thrown error; every other non-2xx response raises a service error; and on a
2xx response the `auth` cookie captured from the `Set-Cookie` headers is
returned with the (non-`invalid`) result. -/
theorem C7_getUser_statuses :
    (∀ req2fa body setCookie, getUserModel 401 req2fa body setCookie = .ok .invalid) ∧
    (∀ status req2fa body setCookie, status ≠ 401 → respOk status = false →
      getUserModel status req2fa body setCookie = .error ("Data: " ++ body)) ∧
    (∀ status req2fa body setCookie, respOk status = true →
      ∃ r, getUserModel status req2fa body setCookie = .ok r ∧ r ≠ .invalid ∧
        authTokenOf r = (if setCookie.isEmpty then none
          else cookieVal (parseSetCookieHeader setCookie) "auth")) := by
  refine ⟨?_, ?_, ?_⟩
  · intro req2fa body setCookie
    simp [getUserModel]
  · intro status req2fa body setCookie h401 hok
    simp [getUserModel, h401, hok]
  · intro status req2fa body setCookie hok
    have h401 : status ≠ 401 := by
      simp only [respOk, Bool.and_eq_true, decide_eq_true_eq] at hok
      omega
    unfold getUserModel
    rw [if_neg h401, hok]
    cases req2fa with
    | none => exact ⟨_, rfl, by simp, rfl⟩
    | some kinds => exact ⟨_, rfl, by simp, rfl⟩

/-- Claim C7 witness: the three branches at concrete responses. -/
theorem C7_witness :
    getUserModel 401 none "x" [] = .ok .invalid ∧
    getUserModel 500 none "boom" [] = .error "Data: boom" ∧
    (∃ r, getUserModel 200 none "u" ["auth=tok; Path=/"] = .ok r ∧ r ≠ .invalid ∧
      authTokenOf r = (if (["auth=tok; Path=/"] : List String).isEmpty then none
        else cookieVal (parseSetCookieHeader ["auth=tok; Path=/"]) "auth")) :=
  ⟨C7_getUser_statuses.1 none "x" [],
   C7_getUser_statuses.2.1 500 none "boom" [] (by decide) (by decide),
   C7_getUser_statuses.2.2 200 none "u" ["auth=tok; Path=/"] (by decide)⟩

/-- Helper: before any iteration the etag array is all-empty. -/
theorem etagsAfter_zero (S : Nat) (tag : Nat → String) :
    etagsAfter S tag 0 = List.replicate (maxParts S) none := by
  simp [etagsAfter]

/-- Helper: a non-empty etag for part `m+1` is stored at index `m`. -/
theorem etagsAfter_succ_set (S : Nat) (tag : Nat → String) (m : Nat)
    (hne : tag (m + 1) ≠ "") :
    (etagsAfter S tag m).set m (some (stripQuotes (tag (m + 1)))) =
      etagsAfter S tag (m + 1) := by
  apply List.ext_getElem
  · simp [etagsAfter]
  · intro i h1 h2
    simp only [etagsAfter, List.getElem_set, List.getElem_map, List.getElem_range] at *
    by_cases hi : m = i
    · subst hi
      simp [hne]
    · simp only [if_neg hi]
      have : (i < m ∧ tag (i + 1) ≠ "") ↔ (i < m + 1 ∧ tag (i + 1) ≠ "") := by
        constructor
        · rintro ⟨h, h'⟩; exact ⟨by omega, h'⟩
        · rintro ⟨h, h'⟩; exact ⟨by omega, h'⟩
      rw [if_congr this rfl rfl]

/-- Helper: an empty etag for part `m+1` leaves the array unchanged. -/
theorem etagsAfter_succ_skip (S : Nat) (tag : Nat → String) (m : Nat)
    (hz : tag (m + 1) = "") :
    etagsAfter S tag m = etagsAfter S tag (m + 1) := by
  unfold etagsAfter
  congr 1
  funext i
  by_cases hi : i = m
  · subst hi
    simp [hz]
  · have : (i < m ∧ tag (i + 1) ≠ "") ↔ (i < m + 1 ∧ tag (i + 1) ≠ "") := by
      constructor
      · rintro ⟨h, h'⟩; exact ⟨by omega, h'⟩
      · rintro ⟨h, h'⟩; exact ⟨by omega, h'⟩
    rw [if_congr this rfl rfl]

/-- Helper: state of the multipart loop after its first `m` iterations when
every `startFileUpload` succeeds and part `k`'s PUT returns `tag k`. -/
theorem runMultipart_state (S : Nat) (fileId : String) (fvid : Nat) (env : PartEnv)
    (tag : Nat → String) (hstart : ∀ k, env.start k = .ok ())
    (hput : ∀ k s l, env.put k s l = .ok (tag k)) :
    ∀ m, m ≤ maxParts S →
      (List.range' 1 m).foldl (partStep S fileId fvid env)
          ⟨.ok (List.replicate (maxParts S) none), [], []⟩ =
        ⟨.ok (etagsAfter S tag m), evsAfter S m, callsAfter S fileId fvid m⟩ := by
  intro m
  induction m with
  | zero => intro _; simp [evsAfter, callsAfter, etagsAfter_zero]
  | succ m ih =>
    intro hm
    rw [List.range'_1_concat, List.foldl_append, ih (by omega)]
    have h1m : 1 + m = m + 1 := Nat.add_comm 1 m
    rw [h1m]
    simp only [List.foldl_cons, List.foldl_nil, partStep, hstart, hput]
    simp only [LoopState.mk.injEq, Nat.add_sub_cancel]
    refine ⟨?_, ?_, ?_⟩
    · by_cases htag : tag (m + 1) = ""
      · rw [if_neg (by simp [htag])]
        rw [etagsAfter_succ_skip S tag m htag]
      · rw [if_pos htag, etagsAfter_succ_set S tag m htag]
    · rfl
    · rfl

/-- Helper: the full multipart loop under all-success outcomes. -/
theorem runMultipart_ok (S : Nat) (fileId : String) (fvid : Nat) (env : PartEnv)
    (tag : Nat → String) (hstart : ∀ k, env.start k = .ok ())
    (hput : ∀ k s l, env.put k s l = .ok (tag k)) :
    runMultipart S fileId fvid env =
      ⟨.ok (etagsAfter S tag (maxParts S)), evsAfter S (maxParts S),
        callsAfter S fileId fvid (maxParts S)⟩ := by
  unfold runMultipart
  exact runMultipart_state S fileId fvid env tag hstart hput (maxParts S) (Nat.le_refl _)

/-- Helper: indexing the etag array. -/
theorem etagsAfter_getElem (S : Nat) (tag : Nat → String) (m i : Nat)
    (hi : i < maxParts S) :
    (etagsAfter S tag m)[i]? =
      some (if i < m ∧ tag (i + 1) ≠ "" then some (stripQuotes (tag (i + 1))) else none) := by
  simp [etagsAfter, hi]

/-- Helper: part `k`'s PUT call, with its byte range, is among the calls of
the first `m` iterations whenever `1 ≤ k ≤ m`. -/
theorem putPart_mem_callsAfter (S : Nat) (fileId : String) (fvid : Nat) :
    ∀ m k, 1 ≤ k → k ≤ m →
      ApiCall.putPart k ((k - 1) * partSize) (min (k * partSize) S - (k - 1) * partSize)
        ∈ callsAfter S fileId fvid m := by
  intro m
  induction m with
  | zero => intro k h1 h2; exact absurd (h1.trans h2) (by omega)
  | succ m ih =>
    intro k h1 h2
    rw [callsAfter]
    rcases Nat.lt_or_ge k (m + 1) with h | h
    · exact List.mem_append_left _ (ih k h1 (by omega))
    · have hk : k = m + 1 := by omega
      subst hk
      apply List.mem_append_right
      simp

/-- Claim C1 (amended): when the multipart loop reaches `finishFileUpload`
(every per-part call returned), the etag array has length `maxParts` and
slot `i` is set — to the quote-stripped ETag — if and only if part `i+1`
was acknowledged (its PUT returned a non-empty ETag); slots of parts
acknowledged without an ETag remain empty and `finish` is still called. -/
theorem C1_etags_at_finish (S : Nat) (fileId : String) (fvid : Nat) (env : PartEnv)
    (tag : Nat → String) (hstart : ∀ k, env.start k = .ok ())
    (hput : ∀ k s l, env.put k s l = .ok (tag k)) :
    ∃ etags, (runMultipart S fileId fvid env).res = .ok etags ∧
      etags.length = maxParts S ∧
      ∀ i, i < maxParts S →
        etags[i]? = some (if tag (i + 1) ≠ "" then some (stripQuotes (tag (i + 1))) else none) := by
  refine ⟨etagsAfter S tag (maxParts S), ?_, ?_, ?_⟩
  · rw [runMultipart_ok S fileId fvid env tag hstart hput]
  · simp [etagsAfter]
  · intro i hi
    rw [etagsAfter_getElem S tag (maxParts S) i hi]
    rw [if_congr (and_iff_right hi) rfl rfl]

/-- Claim C1 witness: a one-part upload whose PUT returns `"e"` in quotes. -/
theorem C1_witness :
    ∃ etags,
      (runMultipart 1 "f" 0 ⟨fun _ => .ok (), fun _ _ _ => .ok "\"e\""⟩).res = .ok etags ∧
      etags.length = maxParts 1 ∧
      ∀ i, i < maxParts 1 →
        etags[i]? = some (if ("\"e\"" : String) ≠ "" then some (stripQuotes "\"e\"") else none) :=
  C1_etags_at_finish 1 "f" 0 ⟨fun _ => .ok (), fun _ _ _ => .ok "\"e\""⟩
    (fun _ => "\"e\"") (fun _ => rfl) (fun _ _ _ => rfl)

/-- Claim C1 counterexample: a 1-byte multipart upload (one part) whose PUT
is acknowledged without an ETag — the full pipeline still calls
`finishFileUpload` with `etags = [none]`, i.e. with an empty slot, refuting
"when finishFileUpload is called ... every slot is non-empty". -/
theorem C1_counterexample :
    maxParts 1 = 1 ∧
    findFinishEtags (uploadFileModel (some "file_1") "n" "p" "application/x-avatar" c1Env).calls
      = some [none] := by
  constructor
  · decide
  · decide

/-- Claim C3: the part size is 10 MiB; the part count is exactly
`⌈S / partSize⌉`; part `k` (1-indexed) PUTs the byte range
`[(k-1)*partSize, min(k*partSize, S))`; and the captured ETag is stored at
position `k-1` with surrounding quotes stripped (empty ETags are skipped,
matching the code's `if (etag)` guard). -/
theorem C3_multipart_geometry :
    partSize = 10 * 1024 * 1024 ∧
    (∀ S, 0 < S → (maxParts S - 1) * partSize < S ∧ S ≤ maxParts S * partSize) ∧
    (∀ (S : Nat) (fileId : String) (fvid : Nat) (env : PartEnv) (tag : Nat → String),
      (∀ k, env.start k = .ok ()) → (∀ k s l, env.put k s l = .ok (tag k)) →
      ∀ k, 1 ≤ k → k ≤ maxParts S →
        ApiCall.putPart k ((k - 1) * partSize) (min (k * partSize) S - (k - 1) * partSize)
            ∈ (runMultipart S fileId fvid env).calls ∧
        ∃ etags, (runMultipart S fileId fvid env).res = .ok etags ∧
          etags[k - 1]? = some (if tag k ≠ "" then some (stripQuotes (tag k)) else none)) := by
  refine ⟨rfl, ?_, ?_⟩
  · intro S hS
    constructor
    · simp only [maxParts, partSize]
      omega
    · simp only [maxParts, partSize]
      omega
  · intro S fileId fvid env tag hstart hput k h1 h2
    constructor
    · rw [runMultipart_ok S fileId fvid env tag hstart hput]
      exact putPart_mem_callsAfter S fileId fvid (maxParts S) k h1 h2
    · refine ⟨etagsAfter S tag (maxParts S), ?_, ?_⟩
      · rw [runMultipart_ok S fileId fvid env tag hstart hput]
      · rw [etagsAfter_getElem S tag (maxParts S) (k - 1) (by omega)]
        have hk : k - 1 + 1 = k := by omega
        rw [hk]
        rw [if_congr (and_iff_right (by omega)) rfl rfl]

/-- Claim C3 witness: a 25 MB upload has 3 parts; part 2 PUTs the range
starting at 10 MiB, and its quote-stripped ETag is stored at index 1. -/
theorem C3_witness :
    partSize = 10 * 1024 * 1024 ∧
    ((maxParts 25000000 - 1) * partSize < 25000000 ∧
      25000000 ≤ maxParts 25000000 * partSize) ∧
    (ApiCall.putPart 2 ((2 - 1) * partSize) (min (2 * partSize) 25000000 - (2 - 1) * partSize)
        ∈ (runMultipart 25000000 "f" 0 ⟨fun _ => .ok (), fun _ _ _ => .ok "\"e\""⟩).calls ∧
     ∃ etags,
       (runMultipart 25000000 "f" 0 ⟨fun _ => .ok (), fun _ _ _ => .ok "\"e\""⟩).res = .ok etags ∧
       etags[2 - 1]? = some (if ("\"e\"" : String) ≠ "" then some (stripQuotes "\"e\"") else none)) :=
  ⟨C3_multipart_geometry.1,
   C3_multipart_geometry.2.1 25000000 (by norm_num),
   C3_multipart_geometry.2.2 25000000 "f" 0 ⟨fun _ => .ok (), fun _ _ _ => .ok "\"e\""⟩
     (fun _ => "\"e\"") (fun _ => rfl) (fun _ _ _ => rfl) 2 (by norm_num)
     (by norm_num [maxParts, partSize])⟩


/-- Helper: one multipart iteration only appends `start`/`put` calls. -/
theorem partStep_calls (S : Nat) (fid : String) (fvid : Nat) (env : PartEnv)
    (st : LoopState) (k : Nat) :
    ∃ s, (partStep S fid fvid env st k).calls = st.calls ++ s ∧
      ∀ c ∈ s, isDeleteCall c = false := by
  cases hres : st.res with
  | error m =>
    refine ⟨[], ?_, by simp⟩
    simp [partStep, hres]
  | ok etags =>
    cases hstart : env.start k with
    | error m =>
      refine ⟨[ApiCall.startFileUpload fid fvid "file" (some k)], ?_, ?_⟩
      · simp [partStep, hres, hstart]
      · intro c hc
        simp only [List.mem_singleton] at hc
        subst hc
        rfl
    | ok u =>
      cases hput : env.put k ((k - 1) * partSize) (min (k * partSize) S - (k - 1) * partSize) with
      | error m =>
        refine ⟨[ApiCall.startFileUpload fid fvid "file" (some k),
          ApiCall.putPart k ((k - 1) * partSize) (min (k * partSize) S - (k - 1) * partSize)], ?_, ?_⟩
        · simp [partStep, hres, hstart, hput]
        · intro c hc
          simp only [List.mem_cons, List.mem_singleton, List.not_mem_nil, or_false] at hc
          rcases hc with rfl | rfl <;> rfl
      | ok etag =>
        refine ⟨[ApiCall.startFileUpload fid fvid "file" (some k),
          ApiCall.putPart k ((k - 1) * partSize) (min (k * partSize) S - (k - 1) * partSize)], ?_, ?_⟩
        · simp [partStep, hres, hstart, hput]
        · intro c hc
          simp only [List.mem_cons, List.mem_singleton, List.not_mem_nil, or_false] at hc
          rcases hc with rfl | rfl <;> rfl

/-- Helper: the multipart loop never emits a `deleteFileVersion` call. -/
theorem runMultipart_no_delete (S : Nat) (fid : String) (fvid : Nat) (env : PartEnv) :
    ∀ c ∈ (runMultipart S fid fvid env).calls, isDeleteCall c = false := by
  unfold runMultipart
  have main : ∀ (l : List Nat) (st : LoopState),
      (∀ c ∈ st.calls, isDeleteCall c = false) →
      ∀ c ∈ (l.foldl (partStep S fid fvid env) st).calls, isDeleteCall c = false := by
    intro l
    induction l with
    | nil => intro st h; simpa using h
    | cons k rest ih =>
      intro st h
      simp only [List.foldl_cons]
      apply ih
      obtain ⟨s, hs, hsf⟩ := partStep_calls S fid fvid env st k
      intro c hc
      rw [hs] at hc
      rcases List.mem_append.mp hc with h1 | h1
      · exact h c h1
      · exact hsf c h1
  exact main _ _ (by simp)

/-- Helper: file-upload stage on an empty version list. -/
theorem uploadFileStage_eval_noVersion (env : FileEnv) (file : VFileM) (fvid : Nat)
    (mime fileMd5 : String) (calls2 : List ApiCall)
    (hl : file.versions.getLast? = none) :
    uploadFileStage env file fvid mime fileMd5 calls2 = ⟨.error "TypeError", [], calls2⟩ := by
  simp only [uploadFileStage, hl]

/-- Helper: file-upload stage when the latest version has no `file` object. -/
theorem uploadFileStage_eval_noFile (env : FileEnv) (file : VFileM) (fvid : Nat)
    (mime fileMd5 : String) (calls2 : List ApiCall) (v : FileVersionM)
    (hl : file.versions.getLast? = some v) (hf : v.file = none) :
    uploadFileStage env file fvid mime fileMd5 calls2 = ⟨.error "TypeError", [], calls2⟩ := by
  simp only [uploadFileStage, hl, hf]

/-- Helper: file-upload stage dispatches to the multipart branch. -/
theorem uploadFileStage_eval_multipart (env : FileEnv) (file : VFileM) (fvid : Nat)
    (mime fileMd5 : String) (calls2 : List ApiCall) (v : FileVersionM) (fd : FileDataM)
    (hl : file.versions.getLast? = some v) (hf : v.file = some fd)
    (hcat : fd.category = FileCategory.multipart) :
    uploadFileStage env file fvid mime fileMd5 calls2 =
      multipartUpload env file fvid calls2 := by
  simp only [uploadFileStage, hl, hf, hcat, if_pos]

/-- Helper: file-upload stage dispatches to the simple branch. -/
theorem uploadFileStage_eval_simple (env : FileEnv) (file : VFileM) (fvid : Nat)
    (mime fileMd5 : String) (calls2 : List ApiCall) (v : FileVersionM) (fd : FileDataM)
    (hl : file.versions.getLast? = some v) (hf : v.file = some fd)
    (hcat : ¬fd.category = FileCategory.multipart) :
    uploadFileStage env file fvid mime fileMd5 calls2 =
      simpleUpload env file fvid mime fileMd5 calls2 := by
  simp only [uploadFileStage, hl, hf, if_neg hcat]

/-- Helper: the multipart finish extends the call list by the loop calls and
possibly the `finish` call; if the loop calls are delete-free so is the
suffix. -/
theorem multipartFinish_calls_structure (env : FileEnv) (file : VFileM) (fvid : Nat)
    (calls2 : List ApiCall) (st : LoopState)
    (hst : ∀ c ∈ st.calls, isDeleteCall c = false) :
    ∃ s, (multipartFinish env file fvid calls2 st).calls = calls2 ++ s ∧
      ∀ c ∈ s, isDeleteCall c = false := by
  cases hres : st.res with
  | error m =>
    refine ⟨st.calls, ?_, hst⟩
    simp only [multipartFinish, hres]
  | ok etags =>
    refine ⟨st.calls ++ [ApiCall.finishFileUpload file.id fvid "file" (some etags)], ?_, ?_⟩
    · cases hfin : env.finishFile with
      | error m => simp only [multipartFinish, hres, hfin, List.append_assoc]
      | ok u => simp only [multipartFinish, hres, hfin, List.append_assoc]
    · intro c hc
      rcases List.mem_append.mp hc with h1 | h1
      · exact hst c h1
      · simp only [List.mem_singleton] at h1
        subst h1
        rfl

/-- Helper: the multipart branch extends the call list with delete-free
calls. -/
theorem multipartUpload_calls_structure (env : FileEnv) (file : VFileM) (fvid : Nat)
    (calls2 : List ApiCall) :
    ∃ s, (multipartUpload env file fvid calls2).calls = calls2 ++ s ∧
      ∀ c ∈ s, isDeleteCall c = false := by
  unfold multipartUpload
  exact multipartFinish_calls_structure env file fvid calls2
    (runMultipart env.size file.id fvid env.partEnv)
    (runMultipart_no_delete env.size file.id fvid env.partEnv)

/-- Helper: the simple branch appends `start`, the PUT (with its headers)
and possibly `finish`; no `deleteFileVersion` appears. -/
theorem simpleUpload_calls_structure (env : FileEnv) (file : VFileM) (fvid : Nat)
    (mime fileMd5 : String) (calls2 : List ApiCall) :
    ∃ s, (simpleUpload env file fvid mime fileMd5 calls2).calls = calls2 ++ s ∧
      ∀ c ∈ s, isDeleteCall c = false := by
  cases hss : env.startSimple with
  | error m =>
    refine ⟨[ApiCall.startFileUpload file.id fvid "file" none], ?_, ?_⟩
    · simp only [simpleUpload, hss]
    · intro c hc
      simp only [List.mem_singleton] at hc
      subst hc
      rfl
  | ok u =>
    cases hps : env.putSimple with
    | error m =>
      refine ⟨[ApiCall.startFileUpload file.id fvid "file" none,
        ApiCall.putSimple [("User-Agent", USER_AGENT), ("Content-Type", mime),
          ("Content-MD5", fileMd5)]], ?_, ?_⟩
      · simp only [simpleUpload, hss, hps, List.append_assoc, List.cons_append,
          List.nil_append]
      · intro c hc
        simp only [List.mem_cons, List.mem_singleton, List.not_mem_nil, or_false] at hc
        rcases hc with rfl | rfl <;> rfl
    | ok u2 =>
      refine ⟨[ApiCall.startFileUpload file.id fvid "file" none,
        ApiCall.putSimple [("User-Agent", USER_AGENT), ("Content-Type", mime),
          ("Content-MD5", fileMd5)],
        ApiCall.finishFileUpload file.id fvid "file" none], ?_, ?_⟩
      · cases hfin : env.finishFile with
        | error m =>
          simp only [simpleUpload, hss, hps, hfin, List.append_assoc, List.cons_append,
            List.nil_append]
        | ok u3 =>
          simp only [simpleUpload, hss, hps, hfin, List.append_assoc, List.cons_append,
            List.nil_append]
      · intro c hc
        simp only [List.mem_cons, List.mem_singleton, List.not_mem_nil, or_false] at hc
        rcases hc with rfl | rfl | rfl <;> rfl

/-- Helper: the file-upload stage extends the given call list and the suffix
never contains a `deleteFileVersion`. -/
theorem uploadFileStage_calls_structure (env : FileEnv) (file : VFileM) (fvid : Nat)
    (mime fileMd5 : String) (calls2 : List ApiCall) :
    ∃ s, (uploadFileStage env file fvid mime fileMd5 calls2).calls = calls2 ++ s ∧
      ∀ c ∈ s, isDeleteCall c = false := by
  cases hl : file.versions.getLast? with
  | none =>
    exact ⟨[], by rw [uploadFileStage_eval_noVersion env file fvid mime fileMd5 calls2 hl]; simp,
      by simp⟩
  | some v =>
    cases hf : v.file with
    | none =>
      exact ⟨[], by rw [uploadFileStage_eval_noFile env file fvid mime fileMd5 calls2 v hl hf]; simp,
        by simp⟩
    | some fd =>
      by_cases hcat : fd.category = FileCategory.multipart
      · rw [uploadFileStage_eval_multipart env file fvid mime fileMd5 calls2 v fd hl hf hcat]
        exact multipartUpload_calls_structure env file fvid calls2
      · rw [uploadFileStage_eval_simple env file fvid mime fileMd5 calls2 v fd hl hf hcat]
        exact simpleUpload_calls_structure env file fvid mime fileMd5 calls2

/-- Helper: the signature/final stage extends the call list with
`startFileUpload`/`putSig`/`finish`/`showFile` calls only. -/
theorem sigFinishStage_calls_structure (env : FileEnv) (fileId : String) (fvid : Nat)
    (signatureMd5 : String) (fr : FileRun) :
    ∃ s, (sigFinishStage env fileId fvid signatureMd5 fr).calls = fr.calls ++ s ∧
      ∀ c ∈ s, isDeleteCall c = false := by
  cases hr : fr.result with
  | error m => exact ⟨[], by simp [sigFinishStage, hr], by simp⟩
  | ok u =>
    cases h1 : env.startSig with
    | error m =>
      refine ⟨[ApiCall.startFileUpload fileId fvid "signature" none], ?_, ?_⟩
      · simp only [sigFinishStage, hr, h1]
      · intro c hc
        simp only [List.mem_singleton] at hc
        subst hc
        rfl
    | ok u1 =>
      cases h2 : env.putSig with
      | error m =>
        refine ⟨[ApiCall.startFileUpload fileId fvid "signature" none,
          ApiCall.putSig [("User-Agent", USER_AGENT),
            ("Content-Type", "application/x-rsync-signature"),
            ("Content-MD5", signatureMd5)]], ?_, ?_⟩
        · simp only [sigFinishStage, hr, h1, h2, List.append_assoc, List.cons_append,
            List.nil_append]
        · intro c hc
          simp only [List.mem_cons, List.mem_singleton, List.not_mem_nil, or_false] at hc
          rcases hc with rfl | rfl <;> rfl
      | ok u2 =>
        cases h3 : env.finishSig with
        | error m =>
          refine ⟨[ApiCall.startFileUpload fileId fvid "signature" none,
            ApiCall.putSig [("User-Agent", USER_AGENT),
              ("Content-Type", "application/x-rsync-signature"),
              ("Content-MD5", signatureMd5)],
            ApiCall.finishFileUpload fileId fvid "signature" none], ?_, ?_⟩
          · simp only [sigFinishStage, hr, h1, h2, h3, List.append_assoc, List.cons_append,
              List.nil_append]
          · intro c hc
            simp only [List.mem_cons, List.mem_singleton, List.not_mem_nil, or_false] at hc
            rcases hc with rfl | rfl | rfl <;> rfl
        | ok u3 =>
          refine ⟨[ApiCall.startFileUpload fileId fvid "signature" none,
            ApiCall.putSig [("User-Agent", USER_AGENT),
              ("Content-Type", "application/x-rsync-signature"),
              ("Content-MD5", signatureMd5)],
            ApiCall.finishFileUpload fileId fvid "signature" none,
            ApiCall.showFileFinal fileId], ?_, ?_⟩
          · cases h4 : env.showFinalRes with
            | error m =>
              simp only [sigFinishStage, hr, h1, h2, h3, h4, List.append_assoc,
                List.cons_append, List.nil_append]
            | ok fup =>
              simp only [sigFinishStage, hr, h1, h2, h3, h4, List.append_assoc,
                List.cons_append, List.nil_append]
              (repeat' split) <;> rfl
          · intro c hc
            simp only [List.mem_cons, List.mem_singleton, List.not_mem_nil, or_false] at hc
            rcases hc with rfl | rfl | rfl | rfl <;> rfl

/-- Helper: shape of the call list of a reusing `uploadFileToVRChat` run —
`showFile`, then the reconciliation (`deleteFileVersion` exactly when the
latest version is not complete), then `createFileVersion`, then delete-free
upload calls. -/
theorem uploadFileModel_skeleton (fid name path mime : String) (env : FileEnv)
    (file0 : VFileM) (v0 : FileVersionM)
    (hres : env.showFileRes = .ok file0)
    (hlast : file0.versions.getLast? = some v0) :
    (v0.status = VStatus.complete →
      ∃ s, (uploadFileModel (some fid) name path mime env).calls =
        ApiCall.showFile fid ::
        ApiCall.createFileVersion file0.id
          ⟨env.md5 (path ++ ".sig"), env.sigSize, env.md5 path, env.size⟩ :: s ∧
        ∀ c ∈ s, isDeleteCall c = false) ∧
    (v0.status ≠ VStatus.complete →
      (∀ m, env.deleteRes = .error m →
        (uploadFileModel (some fid) name path mime env).calls =
          [ApiCall.showFile fid,
           ApiCall.deleteFileVersion file0.id (file0.versions.length - 1)]) ∧
      (env.deleteRes = .ok () →
        ∃ s, (uploadFileModel (some fid) name path mime env).calls =
          ApiCall.showFile fid ::
          ApiCall.deleteFileVersion file0.id (file0.versions.length - 1) ::
          ApiCall.createFileVersion file0.id
            ⟨env.md5 (path ++ ".sig"), env.sigSize, env.md5 path, env.size⟩ :: s)) := by
  constructor
  · intro hst
    have hneg : ¬(v0.status ≠ VStatus.complete) := by simp [hst]
    cases hcv : env.createVersionRes with
    | error m =>
      refine ⟨[], ?_, by simp⟩
      simp only [uploadFileModel, hres, hlast, if_neg hneg, hcv, List.cons_append,
        List.nil_append]
    | ok file =>
      obtain ⟨s1, h1, hnd1⟩ := uploadFileStage_calls_structure env file
        (file.versions.length - 1) mime (env.md5 path)
        ([ApiCall.showFile fid] ++
          [ApiCall.createFileVersion file0.id
            ⟨env.md5 (path ++ ".sig"), env.sigSize, env.md5 path, env.size⟩])
      obtain ⟨s2, h2, hnd2⟩ := sigFinishStage_calls_structure env file.id
        (file.versions.length - 1) (env.md5 (path ++ ".sig"))
        (uploadFileStage env file (file.versions.length - 1) mime (env.md5 path)
          ([ApiCall.showFile fid] ++
            [ApiCall.createFileVersion file0.id
              ⟨env.md5 (path ++ ".sig"), env.sigSize, env.md5 path, env.size⟩]))
      refine ⟨s1 ++ s2, ?_, ?_⟩
      · simp only [uploadFileModel, hres, hlast, if_neg hneg, hcv]
        rw [h2, h1]
        simp
      · intro c hc
        rcases List.mem_append.mp hc with hA | hA
        · exact hnd1 c hA
        · exact hnd2 c hA
  · intro hst
    constructor
    · intro m hdel
      simp only [uploadFileModel, hres, hlast, if_pos hst, hdel, List.cons_append,
        List.nil_append]
    · intro hdel
      cases hcv : env.createVersionRes with
      | error m =>
        refine ⟨[], ?_⟩
        simp only [uploadFileModel, hres, hlast, if_pos hst, hdel, hcv, List.cons_append,
          List.nil_append, List.append_assoc]
      | ok file =>
        obtain ⟨s1, h1, hnd1⟩ := uploadFileStage_calls_structure env file
          (file.versions.length - 1) mime (env.md5 path)
          (([ApiCall.showFile fid] ++
            [ApiCall.deleteFileVersion file0.id (file0.versions.length - 1)]) ++
            [ApiCall.createFileVersion file0.id
              ⟨env.md5 (path ++ ".sig"), env.sigSize, env.md5 path, env.size⟩])
        obtain ⟨s2, h2, hnd2⟩ := sigFinishStage_calls_structure env file.id
          (file.versions.length - 1) (env.md5 (path ++ ".sig"))
          (uploadFileStage env file (file.versions.length - 1) mime (env.md5 path)
            (([ApiCall.showFile fid] ++
              [ApiCall.deleteFileVersion file0.id (file0.versions.length - 1)]) ++
              [ApiCall.createFileVersion file0.id
                ⟨env.md5 (path ++ ".sig"), env.sigSize, env.md5 path, env.size⟩]))
        refine ⟨s1 ++ s2, ?_⟩
        simp only [uploadFileModel, hres, hlast, if_pos hst, hdel, hcv]
        rw [h2, h1]
        simp

/-- Claim C5: for every reused file with a non-empty version list,
`uploadFileToVRChat` calls `deleteFileVersion` on the latest version if and
only if that version's status is not `complete`, the deletion happens
before `createFileVersion`, and a non-complete version is handled locally —
when the delete succeeds the run proceeds directly to `createFileVersion`
rather than surfacing an error. -/
theorem C5_version_reconciliation (fid name path mime : String) (env : FileEnv)
    (file0 : VFileM) (v0 : FileVersionM)
    (hres : env.showFileRes = .ok file0)
    (hlast : file0.versions.getLast? = some v0) :
    (ApiCall.deleteFileVersion file0.id (file0.versions.length - 1) ∈
        (uploadFileModel (some fid) name path mime env).calls ↔
      v0.status ≠ VStatus.complete) ∧
    (v0.status ≠ VStatus.complete → env.deleteRes = .ok () →
      ∃ s, (uploadFileModel (some fid) name path mime env).calls =
        ApiCall.showFile fid ::
        ApiCall.deleteFileVersion file0.id (file0.versions.length - 1) ::
        ApiCall.createFileVersion file0.id
          ⟨env.md5 (path ++ ".sig"), env.sigSize, env.md5 path, env.size⟩ :: s) := by
  have hsk := uploadFileModel_skeleton fid name path mime env file0 v0 hres hlast
  constructor
  · constructor
    · intro hmem
      by_contra hc
      obtain ⟨s, hcalls, hnd⟩ := hsk.1 hc
      rw [hcalls] at hmem
      simp only [List.mem_cons] at hmem
      rcases hmem with h | h | h
      · simp at h
      · simp at h
      · simpa [isDeleteCall] using hnd _ h
    · intro hst
      cases hdel : env.deleteRes with
      | error m =>
        rw [(hsk.2 hst).1 m hdel]
        simp
      | ok u =>
        cases u
        obtain ⟨s, hcalls⟩ := (hsk.2 hst).2 hdel
        rw [hcalls]
        simp
  · intro hst hdel
    exact (hsk.2 hst).2 hdel

/-- Claim C5 witness: a file whose latest version is `waiting` — the run
deletes it and then creates the new version. -/
theorem C5_witness :
    ∃ s, (uploadFileModel (some "file_1") "n" "p" "image/png" c5Env).calls =
      ApiCall.showFile "file_1" :: ApiCall.deleteFileVersion "file_1" 0 ::
      ApiCall.createFileVersion "file_1" ⟨"md5digest", 8, "md5digest", 5⟩ :: s :=
  (C5_version_reconciliation "file_1" "n" "p" "image/png" c5Env waitingFile
    ⟨VStatus.waiting, some ⟨FileCategory.simple, "https://x/file/file_1/1/file"⟩⟩ rfl rfl).2
    (by decide) rfl

/-- Claim C9: `uploadFileToVRChat` reads `versions[versions.length - 1].status`
without an emptiness check: on a file whose `versions` list is empty the
reconciliation step dereferences `undefined` and the whole operation throws
(no further call is made); with a non-empty list it proceeds past the
inspection to the next call — so a non-empty version list is the
precondition that avoids the failure. -/
theorem C9_empty_versions_guard (fid name path mime : String) (env : FileEnv)
    (file0 : VFileM) (hres : env.showFileRes = .ok file0) :
    (file0.versions = [] →
      uploadFileModel (some fid) name path mime env =
        ⟨.error "TypeError", [], [ApiCall.showFile fid]⟩) ∧
    (file0.versions ≠ [] →
      ((uploadFileModel (some fid) name path mime env).calls)[1]?.isSome = true) := by
  constructor
  · intro hempty
    have hlast : file0.versions.getLast? = none := by simp [hempty]
    simp only [uploadFileModel, hres, hlast]
  · intro hne
    obtain ⟨v0, hlast⟩ : ∃ v, file0.versions.getLast? = some v := by
      cases h : file0.versions.getLast? with
      | none => exact absurd (List.getLast?_eq_none_iff.mp h) hne
      | some v => exact ⟨v, rfl⟩
    have hsk := uploadFileModel_skeleton fid name path mime env file0 v0 hres hlast
    by_cases hst : v0.status = VStatus.complete
    · obtain ⟨s, hcalls, _⟩ := hsk.1 hst
      rw [hcalls]
      simp
    · cases hdel : env.deleteRes with
      | error m =>
        rw [(hsk.2 hst).1 m hdel]
        simp
      | ok u =>
        cases u
        obtain ⟨s, hcalls⟩ := (hsk.2 hst).2 hdel
        rw [hcalls]
        simp

/-- Claim C9 witness: on a file with no versions the operation throws the
TypeError right after `showFile`. -/
theorem C9_witness :
    uploadFileModel (some "file_1") "n" "p" "image/png" c9Env =
      ⟨.error "TypeError", [], [ApiCall.showFile "file_1"]⟩ :=
  (C9_empty_versions_guard "file_1" "n" "p" "image/png" c9Env emptyVersionsFile rfl).1 rfl

/-- Helper: Base64 output length is `4 * ⌈n/3⌉`. -/
theorem base64Encode_length (d : List (Fin 256)) :
    (base64Encode d).length = 4 * ((d.length + 2) / 3) := by
  induction d using base64Encode.induct <;> (simp [base64Encode, *]; try omega)

/-- Helper: after a successful `start`, the simple branch records the PUT
with its headers, whatever happens afterwards. -/
theorem simpleUpload_calls_put (env : FileEnv) (file : VFileM) (fvid : Nat)
    (mime fileMd5 : String) (calls2 : List ApiCall)
    (hss : env.startSimple = .ok ()) :
    ∃ rest, (simpleUpload env file fvid mime fileMd5 calls2).calls =
      calls2 ++ ApiCall.startFileUpload file.id fvid "file" none ::
        ApiCall.putSimple [("User-Agent", USER_AGENT), ("Content-Type", mime),
          ("Content-MD5", fileMd5)] :: rest := by
  cases hps : env.putSimple with
  | error m =>
    exact ⟨[], by simp only [simpleUpload, hss, hps, List.append_assoc, List.cons_append,
      List.nil_append]⟩
  | ok u =>
    cases hfin : env.finishFile with
    | error m =>
      exact ⟨[ApiCall.finishFileUpload file.id fvid "file" none],
        by simp only [simpleUpload, hss, hps, hfin, List.append_assoc, List.cons_append,
          List.nil_append]⟩
    | ok u2 =>
      exact ⟨[ApiCall.finishFileUpload file.id fvid "file" none],
        by simp only [simpleUpload, hss, hps, hfin, List.append_assoc, List.cons_append,
          List.nil_append]⟩

/-- Claim C2 (amended): the digest string returned by the native
`md5_digest_file` command for the file is sent BOTH as the `fileMd5` field
of the `createFileVersion` body AND as the `Content-MD5` header of the
simple PUT — the two wire forms are the identical string, not a hex
encoding in one place and a Base64 encoding in the other. -/
theorem C2_md5_wire_forms (fid name path mime : String) (env : FileEnv)
    (file0 file1 : VFileM) (v0 v1 : FileVersionM) (fd : FileDataM)
    (hres : env.showFileRes = .ok file0)
    (hlast : file0.versions.getLast? = some v0)
    (hst : v0.status = VStatus.complete)
    (hcv : env.createVersionRes = .ok file1)
    (hl1 : file1.versions.getLast? = some v1)
    (hf1 : v1.file = some fd)
    (hcat : ¬fd.category = FileCategory.multipart)
    (hss : env.startSimple = .ok ()) :
    findVersionBody (uploadFileModel (some fid) name path mime env).calls =
      some ⟨env.md5 (path ++ ".sig"), env.sigSize, env.md5 path, env.size⟩ ∧
    ∃ h, findSimpleHeaders (uploadFileModel (some fid) name path mime env).calls = some h ∧
      h.lookup "Content-MD5" = some (env.md5 path) := by
  have hneg : ¬(v0.status ≠ VStatus.complete) := by simp [hst]
  have hmodel : uploadFileModel (some fid) name path mime env =
      sigFinishStage env file1.id (file1.versions.length - 1) (env.md5 (path ++ ".sig"))
        (uploadFileStage env file1 (file1.versions.length - 1) mime (env.md5 path)
          ([ApiCall.showFile fid] ++
            [ApiCall.createFileVersion file0.id
              ⟨env.md5 (path ++ ".sig"), env.sigSize, env.md5 path, env.size⟩])) := by
    simp only [uploadFileModel, hres, hlast, if_neg hneg, hcv]
  rw [hmodel,
    uploadFileStage_eval_simple env file1 (file1.versions.length - 1) mime (env.md5 path)
      ([ApiCall.showFile fid] ++
        [ApiCall.createFileVersion file0.id
          ⟨env.md5 (path ++ ".sig"), env.sigSize, env.md5 path, env.size⟩]) v1 fd hl1 hf1 hcat]
  obtain ⟨s2, h2, _⟩ := sigFinishStage_calls_structure env file1.id
    (file1.versions.length - 1) (env.md5 (path ++ ".sig"))
    (simpleUpload env file1 (file1.versions.length - 1) mime (env.md5 path)
      ([ApiCall.showFile fid] ++
        [ApiCall.createFileVersion file0.id
          ⟨env.md5 (path ++ ".sig"), env.sigSize, env.md5 path, env.size⟩]))
  obtain ⟨rest, hput⟩ := simpleUpload_calls_put env file1 (file1.versions.length - 1)
    mime (env.md5 path)
    ([ApiCall.showFile fid] ++
      [ApiCall.createFileVersion file0.id
        ⟨env.md5 (path ++ ".sig"), env.sigSize, env.md5 path, env.size⟩]) hss
  rw [h2, hput]
  constructor
  · simp [findVersionBody]
  · refine ⟨[("User-Agent", USER_AGENT), ("Content-Type", mime),
      ("Content-MD5", env.md5 path)], ?_, ?_⟩
    · simp [findSimpleHeaders]
    · simp [List.lookup]

/-- Claim C2 witness: the wire forms in the concrete C2 run — the body's
`fileMd5` and the PUT's `Content-MD5` are the same digest string. -/
theorem C2_witness :
    findVersionBody (uploadFileModel (some "file_1") "n" "path" "image/png" c2Env).calls =
      some ⟨"0123456789abcdef0123456789abcdef", 8, "0123456789abcdef0123456789abcdef", 5⟩ ∧
    ∃ h, findSimpleHeaders
        (uploadFileModel (some "file_1") "n" "path" "image/png" c2Env).calls = some h ∧
      h.lookup "Content-MD5" = some "0123456789abcdef0123456789abcdef" :=
  C2_md5_wire_forms "file_1" "n" "path" "image/png" c2Env simpleFile simpleFile
    ⟨VStatus.complete, some ⟨FileCategory.simple, "https://x/file/file_1/1/file"⟩⟩
    ⟨VStatus.complete, some ⟨FileCategory.simple, "https://x/file/file_1/1/file"⟩⟩
    ⟨FileCategory.simple, "https://x/file/file_1/1/file"⟩
    rfl rfl rfl rfl rfl rfl (by decide) rfl

/-- Claim C2 counterexample: in the concrete run the `createFileVersion`
body field and the `Content-MD5` header are the SAME string, so they cannot
be, as the claim states, the hex encoding and the Base64 encoding of one
16-byte MD5 digest — Base64 of 16 bytes has 24 characters while the string
has 32. -/
theorem C2_counterexample :
    c2Body = c2Header ∧
    ¬∃ d : List (Fin 256), d.length = 16 ∧
      c2Body.data = hexEncode d ∧ c2Header.data = base64Encode d := by
  refine ⟨by decide, ?_⟩
  rintro ⟨d, hlen, hhex, hb64⟩
  have h1 : c2Header.data.length = 32 := by decide
  rw [hb64, base64Encode_length, hlen] at h1
  norm_num at h1

/-- Helper: every event of one platform step is a `bundle` event with the
step's platform index and total. -/
theorem platformYield_evs_bundle (meta : BundleMeta) (avatar : AvatarM) (idx total : Nat)
    (platform path : String) (fenv : FileEnv) (updRes : Except String Unit) :
    ∀ e ∈ (platformYield meta avatar idx total platform path fenv updRes).1,
      ∃ p t, e = Progress.bundle p t idx total := by
  intro e he
  simp only [platformYield] at he
  split at he
  · simp at he
  · split at he
    · obtain ⟨pt, _, rfl⟩ := List.mem_map.mp he
      exact ⟨pt.1, pt.2, rfl⟩
    · split at he
      · obtain ⟨pt, _, rfl⟩ := List.mem_map.mp he
        exact ⟨pt.1, pt.2, rfl⟩
      · obtain ⟨pt, _, rfl⟩ := List.mem_map.mp he
        exact ⟨pt.1, pt.2, rfl⟩

/-- Helper: every avatar call of one platform step is an `updateAvatar` for
its platform. -/
theorem platformYield_calls_bundle (meta : BundleMeta) (avatar : AvatarM) (idx total : Nat)
    (platform path : String) (fenv : FileEnv) (updRes : Except String Unit) :
    ∀ c ∈ (platformYield meta avatar idx total platform path fenv updRes).2.1,
      ∃ p, c = OrchCall.updateAvatarBundle p := by
  intro c hc
  simp only [platformYield] at hc
  split at hc
  · simp at hc
  · split at hc
    · simp at hc
    · split at hc
      · simp only [List.mem_singleton] at hc
        exact ⟨platform, hc⟩
      · simp only [List.mem_singleton] at hc
        exact ⟨platform, hc⟩

/-- Helper: every event of the platform loop is a `bundle` event. -/
theorem platformLoop_all_bundle (meta : BundleMeta) (avatar : AvatarM) (total : Nat) :
    ∀ (items : List ReadyItem) (idx : Nat),
      AllBundle (platformLoop meta avatar total idx items).1 := by
  intro items
  induction items with
  | nil => intro idx e he; simp [platformLoop] at he
  | cons item rest ih =>
    intro idx e he
    cases item with
    | fail m => simp [platformLoop] at he
    | yield platform path fenv updRes =>
      simp only [platformLoop] at he
      split at he
      · obtain ⟨p, t, rfl⟩ :=
          platformYield_evs_bundle meta avatar idx total platform path fenv updRes e he
        exact ⟨p, t, idx, total, rfl⟩
      · rcases List.mem_append.mp he with h1 | h1
        · obtain ⟨p, t, rfl⟩ :=
            platformYield_evs_bundle meta avatar idx total platform path fenv updRes e h1
          exact ⟨p, t, idx, total, rfl⟩
        · exact ih (idx + 1) e h1

/-- Helper: every avatar call of the platform loop is an `updateAvatar` for
some platform. -/
theorem platformLoop_calls_bundle (meta : BundleMeta) (avatar : AvatarM) (total : Nat) :
    ∀ (items : List ReadyItem) (idx : Nat), ∀ c ∈ (platformLoop meta avatar total idx items).2.1,
      ∃ p, c = OrchCall.updateAvatarBundle p := by
  intro items
  induction items with
  | nil => intro idx c hc; simp [platformLoop] at hc
  | cons item rest ih =>
    intro idx c hc
    cases item with
    | fail m => simp [platformLoop] at hc
    | yield platform path fenv updRes =>
      simp only [platformLoop] at hc
      split at hc
      · exact platformYield_calls_bundle meta avatar idx total platform path fenv updRes c hc
      · rcases List.mem_append.mp hc with h1 | h1
        · exact platformYield_calls_bundle meta avatar idx total platform path fenv updRes c h1
        · exact ih (idx + 1) c h1

/-- Helper: shape of the post-upsert tail — `waiting`, bundle events only,
then exactly one of `completed` or `error`; the appended calls are all
per-platform `updateAvatar` calls. -/
theorem orchAfterUpsert_shape (env : OrchEnv) (avatar : AvatarM) (evs : List Progress)
    (calls : List OrchCall) :
    ∃ bs cs, AllBundle bs ∧ (∀ c ∈ cs, ∃ p, c = OrchCall.updateAvatarBundle p) ∧
      (orchAfterUpsert env avatar evs calls).calls = calls ++ cs ∧
      ((orchAfterUpsert env avatar evs calls).events =
          evs ++ [Progress.waiting] ++ bs ++ [Progress.completed] ∨
       ∃ m, (orchAfterUpsert env avatar evs calls).events =
          evs ++ [Progress.waiting] ++ bs ++ [Progress.error m]) := by
  refine ⟨(platformLoop env.meta avatar env.meta.assetBundles.length 0 env.ready).1,
    (platformLoop env.meta avatar env.meta.assetBundles.length 0 env.ready).2.1,
    platformLoop_all_bundle env.meta avatar env.meta.assetBundles.length env.ready 0,
    (fun c hc =>
      platformLoop_calls_bundle env.meta avatar env.meta.assetBundles.length env.ready 0 c hc),
    ?_, ?_⟩
  · cases herr : (platformLoop env.meta avatar env.meta.assetBundles.length 0 env.ready).2.2 with
    | some m => simp only [orchAfterUpsert, herr]
    | none => simp only [orchAfterUpsert, herr]
  · cases herr : (platformLoop env.meta avatar env.meta.assetBundles.length 0 env.ready).2.2 with
    | some m =>
      right
      exact ⟨m, by simp only [orchAfterUpsert, herr]⟩
    | none =>
      left
      simp only [orchAfterUpsert, herr]

/-- Helper: the three outcomes of the update branch (existing avatar). -/
theorem orchRun_update_branch (env : OrchEnv) (a : AvatarM)
    (hga : env.getAvatarRes.toOption = some a) :
    (∃ m, (orchRun env).events = [Progress.init, Progress.thumbnail, Progress.error m] ∧
      (orchRun env).calls = [OrchCall.getAvatarC]) ∨
    (∃ m, (orchRun env).events = [Progress.init, Progress.thumbnail, Progress.error m] ∧
      (orchRun env).calls = [OrchCall.getAvatarC, OrchCall.updateAvatarImage]) ∨
    orchRun env = orchAfterUpsert env a [Progress.init, Progress.thumbnail]
      [OrchCall.getAvatarC, OrchCall.updateAvatarImage] := by
  cases hr : (uploadFileModel (some (parseFileUrlId a.thumbnailImageUrl))
      (imageFileName env.meta.name) env.thumbnailPath "image/png" env.imageEnv).result with
  | error m =>
    left
    exact ⟨m, by simp only [orchRun, hga, hr, List.cons_append, List.nil_append],
      by simp only [orchRun, hga, hr]⟩
  | ok u =>
    cases hupd : env.updAvatarImage with
    | error m =>
      right; left
      exact ⟨m, by simp only [orchRun, hga, hr, hupd, List.cons_append, List.nil_append],
        by simp only [orchRun, hga, hr, hupd, List.cons_append, List.nil_append]⟩
    | ok u2 =>
      right; right
      simp only [orchRun, hga, hr, hupd, List.cons_append, List.nil_append]

/-- Helper: the three outcomes of the create branch (no avatar found). -/
theorem orchRun_create_branch (env : OrchEnv)
    (hga : env.getAvatarRes.toOption = none) :
    (∃ m, (uploadFileModel none (imageFileName env.meta.name) env.thumbnailPath
        "image/png" env.imageEnv).result = .error m ∧
      (orchRun env).events = [Progress.init, Progress.thumbnail, Progress.error m] ∧
      (orchRun env).calls = [OrchCall.getAvatarC]) ∨
    (∃ m, (orchRun env).events = [Progress.init, Progress.thumbnail, Progress.error m] ∧
      (orchRun env).calls = [OrchCall.getAvatarC, OrchCall.createAvatarC]) ∨
    (∃ a, env.createAvatarRes = .ok a ∧
      orchRun env = orchAfterUpsert env a [Progress.init, Progress.thumbnail]
        [OrchCall.getAvatarC, OrchCall.createAvatarC]) := by
  cases hr : (uploadFileModel none (imageFileName env.meta.name) env.thumbnailPath
      "image/png" env.imageEnv).result with
  | error m =>
    left
    exact ⟨m, rfl, by simp only [orchRun, hga, hr, List.cons_append, List.nil_append],
      by simp only [orchRun, hga, hr]⟩
  | ok u =>
    right
    cases hcv : env.createAvatarRes with
    | error ce =>
      left
      cases ce with
      | vrchat code m =>
        by_cases hcode : code = 500
        · subst hcode
          exact ⟨"Blueprint ID already in use: Avatar bundle has already been uploaded",
            by simp only [orchRun, hga, hr, hcv, if_pos, List.cons_append, List.nil_append],
            by simp only [orchRun, hga, hr, hcv, if_pos, List.cons_append, List.nil_append]⟩
        · exact ⟨m,
            by simp only [orchRun, hga, hr, hcv, if_neg hcode, List.cons_append, List.nil_append],
            by simp only [orchRun, hga, hr, hcv, if_neg hcode, List.cons_append, List.nil_append]⟩
      | other m =>
        exact ⟨m, by simp only [orchRun, hga, hr, hcv, List.cons_append, List.nil_append],
          by simp only [orchRun, hga, hr, hcv, List.cons_append, List.nil_append]⟩
    | ok a =>
      right
      exact ⟨a, rfl, by simp only [orchRun, hga, hr, hcv, List.cons_append, List.nil_append]⟩

/-- Claim C8: every publication run emits `init`, `thumbnail`, then either an
immediate single `error`, or `waiting` followed by only `bundle` events and
exactly one terminal `completed` or `error`; for the single-platform simple
upload the full sequence is `init, thumbnail, waiting, bundle{0,1,0,1},
bundle{1,1,0,1}, completed`. -/
theorem C8_progress_events :
    (∀ env : OrchEnv, GoodTrace (orchRun env).events) ∧
    (orchRun c8Env).events = [Progress.init, Progress.thumbnail, Progress.waiting,
      Progress.bundle 0 1 0 1, Progress.bundle 1 1 0 1, Progress.completed] := by
  constructor
  · intro env
    cases hga : env.getAvatarRes.toOption with
    | some a =>
      rcases orchRun_update_branch env a hga with ⟨m, he, _⟩ | ⟨m, he, _⟩ | heq
      · exact Or.inl ⟨m, he⟩
      · exact Or.inl ⟨m, he⟩
      · obtain ⟨bs, cs, hAll, _, _, hdisj⟩ := orchAfterUpsert_shape env a
          [Progress.init, Progress.thumbnail]
          [OrchCall.getAvatarC, OrchCall.updateAvatarImage]
        right
        refine ⟨bs, hAll, ?_⟩
        rw [heq]
        rcases hdisj with h | ⟨m, h⟩
        · left
          rw [h]
          simp
        · right
          exact ⟨m, by rw [h]; simp⟩
    | none =>
      rcases orchRun_create_branch env hga with ⟨m, _, he, _⟩ | ⟨m, he, _⟩ | ⟨a, _, heq⟩
      · exact Or.inl ⟨m, he⟩
      · exact Or.inl ⟨m, he⟩
      · obtain ⟨bs, cs, hAll, _, _, hdisj⟩ := orchAfterUpsert_shape env a
          [Progress.init, Progress.thumbnail]
          [OrchCall.getAvatarC, OrchCall.createAvatarC]
        right
        refine ⟨bs, hAll, ?_⟩
        rw [heq]
        rcases hdisj with h | ⟨m, h⟩
        · left
          rw [h]
          simp
        · right
          exact ⟨m, by rw [h]; simp⟩
  · decide

/-- Claim C8 witness: the trace-shape theorem applied to the concrete
single-platform environment. -/
theorem C8_witness : GoodTrace (orchRun c8Env).events :=
  C8_progress_events.1 c8Env

/-- Claim C10: every `getAvatar` failure — any non-2xx status throws, not
only a 404 — is caught by the orchestrator and treated exactly like the
avatar-not-found case: the run behaves identically to a 404 run, the
update-avatar-image branch is never taken, and as soon as the thumbnail
upload succeeds the create-avatar branch is entered instead of surfacing
the error. -/
theorem C10_getAvatar_recovered :
    (∀ (status : Nat) (body : String) (av : AvatarM), respOk status = false →
      getAvatarApi status body av = .error ⟨status, "Data: " ++ body⟩) ∧
    (∀ (env : OrchEnv) (e : VErr), env.getAvatarRes = .error e →
      (orchRun env).events =
        (orchRun { env with getAvatarRes := .error ⟨404, "Data: nf"⟩ }).events ∧
      (orchRun env).calls =
        (orchRun { env with getAvatarRes := .error ⟨404, "Data: nf"⟩ }).calls ∧
      OrchCall.updateAvatarImage ∉ (orchRun env).calls ∧
      (∀ u, (uploadFileModel none (imageFileName env.meta.name) env.thumbnailPath
          "image/png" env.imageEnv).result = .ok u →
        OrchCall.createAvatarC ∈ (orchRun env).calls)) := by
  constructor
  · intro status body av h
    simp [getAvatarApi, h]
  · intro env e he
    have h1 : env.getAvatarRes.toOption = none := by rw [he]; rfl
    have heq : orchRun env = orchRun { env with getAvatarRes := .error ⟨404, "Data: nf"⟩ } := by
      simp only [orchRun, h1]
      rfl
    refine ⟨congrArg OrchRun.events heq, congrArg OrchRun.calls heq, ?_, ?_⟩
    · rcases orchRun_create_branch env h1 with ⟨m, _, _, hc⟩ | ⟨m, _, hc⟩ | ⟨a, _, heq2⟩
      · rw [hc]
        simp
      · rw [hc]
        simp
      · rw [heq2]
        obtain ⟨bs, cs, _, hcs, hcalls, _⟩ := orchAfterUpsert_shape env a
          [Progress.init, Progress.thumbnail]
          [OrchCall.getAvatarC, OrchCall.createAvatarC]
        rw [hcalls]
        intro hmem
        rcases List.mem_append.mp hmem with h | h
        · simp at h
        · obtain ⟨p, hp⟩ := hcs _ h
          simp at hp
    · intro u hu
      rcases orchRun_create_branch env h1 with ⟨m, herr, _, _⟩ | ⟨m, _, hc⟩ | ⟨a, _, heq2⟩
      · rw [hu] at herr
        simp at herr
      · rw [hc]
        simp
      · rw [heq2]
        obtain ⟨bs, cs, _, _, hcalls, _⟩ := orchAfterUpsert_shape env a
          [Progress.init, Progress.thumbnail]
          [OrchCall.getAvatarC, OrchCall.createAvatarC]
        rw [hcalls]
        exact List.mem_append_left _ (by simp)

/-- Claim C10 witness: a 500 response throws, and in the concrete run where
`getAvatar` failed the create branch is taken and the image-update branch is
not. -/
theorem C10_witness :
    getAvatarApi 500 "oops" c8Avatar = .error ⟨500, "Data: oops"⟩ ∧
    OrchCall.updateAvatarImage ∉ (orchRun c8Env).calls ∧
    OrchCall.createAvatarC ∈ (orchRun c8Env).calls :=
  ⟨C10_getAvatar_recovered.1 500 "oops" c8Avatar (by decide),
   (C10_getAvatar_recovered.2 c8Env ⟨404, "Data: nf"⟩ rfl).2.2.1,
   (C10_getAvatar_recovered.2 c8Env ⟨404, "Data: nf"⟩ rfl).2.2.2
     "https://x/file/file_1/1/file" rfl⟩
